import Mathlib

/-!
Chrome image build pipeline (`build/chrome.go`)

A shallow embedding of `build/chrome.go` and the properties of its version
truncation, channel mapping, driver resolution and build orchestration.

Go strings are modelled by `String`, Go `int` by `Int` (64-bit range where a
library function checks it), Go slices by `List`, a run-time panic by `none`
in the result, and a Go `error` by its
message.
-/

namespace SelenoidImages

/-! ## Go library functions used by the source -/

/-- Character-level `strings.Split(s, sep)` for a one-character separator:
the pieces between the separators, always at least one piece. -/
def splitChars (sep : Char) : List Char → List (List Char)
  | [] => [[]]
  | c :: cs =>
    if c = sep then [] :: splitChars sep cs
    else
      match splitChars sep cs with
      | [] => [[c]]
      | p :: ps => (c :: p) :: ps

/-- Character-level `strings.Join(elems, sep)`. -/
def joinChars (sep : List Char) : List (List Char) → List Char
  | [] => []
  | [p] => p
  | p :: q :: ps => p ++ sep ++ joinChars sep (q :: ps)

/-- Go `strings.Split(s, sep)` for a one-character separator. -/
def Split (s : String) (sep : Char) : List String :=
  (splitChars sep s.data).map String.mk

/-- Go `strings.Join(elems, sep)`. -/
def Join (elems : List String) (sep : String) : String :=
  String.mk (joinChars sep.data (elems.map String.data))

/-- Go slice expression `s[0:n]` on a slice whose capacity equals its length
(as for the result of `strings.Split`): `none` is the run-time panic
"slice bounds out of range". -/
def sliceTo {α : Type} (s : List α) (n : Int) : Option (List α) :=
  if 0 ≤ n ∧ n ≤ (s.length : Int) then some (s.take n.toNat) else none

/-! ## Version truncation (`versionN` and its specialisations) -/

/-- Source `versionN` (chrome.go:168-175). -/
def versionN (pkgVersion : String) (n : Int) : Option String :=
  let buildVersion := pkgVersion
  let pieces := Split pkgVersion '.'
  if (pieces.length : Int) ≥ n then
    (sliceTo pieces n).map (fun ps => Join ps ".")
  else
    some buildVersion

/-- Source `majorVersion` (chrome.go:177-179). -/
def majorVersion (pkgVersion : String) : Option String :=
  versionN pkgVersion 1

/-- Source `majorMinorVersion` (chrome.go:181-183). -/
def majorMinorVersion (pkgVersion : String) : Option String :=
  versionN pkgVersion 2

/-- Source `buildVersion` (chrome.go:185-187). -/
def buildVersion (pkgVersion : String) : Option String :=
  versionN pkgVersion 3

/-- The specification's `truncate(version, n)`, following its words: split
`version` on `.`; if the number of segments is at least `n`, the first `n`
segments rejoined with `.`; otherwise `version` unchanged. -/
def truncate (version : String) (n : Nat) : String :=
  let segments := Split version '.'
  if segments.length ≥ n then Join (segments.take n) "." else version

deriving instance DecidableEq for Except

/-- Go `fmt.Sprintf("%d", i)`: the decimal rendering of an `int`. -/
def formatInt (i : Int) : String := toString i

/-- Failure kinds of Go `strconv.Atoi`. -/
inductive NumError where
  | malformed
  | outOfRange
  deriving DecidableEq, Repr

/-- Go `strconv.ParseUint(s, 10, 64)` on the characters left to read, `n`
being the value read so far: each character is checked to be a decimal
digit and then for overflow of `uint64`, in that order, so an overflow is
reported before a later bad character is seen. -/
def parseUint : List Char → Nat → Except NumError Nat
  | [], n => .ok n
  | ch :: rest, n =>
    if ch.isDigit then
      if n * 10 + (ch.toNat - 48) > 2 ^ 64 - 1 then .error .outOfRange
      else parseUint rest (n * 10 + (ch.toNat - 48))
    else .error .malformed

/-- Go `strconv.Atoi` with a 64-bit `int`: an optional sign, then one or more
decimal digits read by `ParseUint`, the signed value within
`[-2^63, 2^63 - 1]`. -/
def Atoi (s : String) : Except NumError Int :=
  let signed : Bool × List Char :=
    match s.data with
    | '-' :: rest => (true, rest)
    | '+' :: rest => (false, rest)
    | rest => (false, rest)
  if signed.2 = [] then .error .malformed
  else
    match parseUint signed.2 0 with
    | .error err => .error err
    | .ok un =>
      if !signed.1 && decide (un ≥ 2 ^ 63) then .error .outOfRange
      else if signed.1 && decide (un > 2 ^ 63) then .error .outOfRange
      else .ok (if signed.1 then -(un : Int) else (un : Int))

/-- Go `http.StatusOK`. -/
def StatusOK : Int := 200

/-! ## Data model -/

/-- Modelled from the spec: the constant `LatestVersion` is declared outside
`chrome.go`; the specification calls it the sentinel value "latest". -/
def LatestVersion : String := "latest"

/-- Source constant `chromeDriverBinary` (chrome.go:14). -/
def chromeDriverBinary : String := "chromedriver"

/-- The fields of `Requirements` that `chrome.go` reads or sets. The
`BrowserSource` field is an interface value; its `Prepare` method is the
`World.Prepare` collaborator. -/
structure Requirements where
  BrowserChannel : String
  DriverVersion : String
  NoCache : Bool
  TestsDir : String
  Tags : List String
  deriving DecidableEq, Repr

/-- The fields of `Image` that `chrome.go` reads or sets. -/
structure Image where
  Dir : String
  BuildArgs : List String
  Labels : List String
  FileServer : Bool
  deriving DecidableEq, Repr

/-- Source `type Chrome struct { Requirements }` (chrome.go:17-19). -/
structure Chrome extends Requirements
  deriving DecidableEq, Repr

/-- What `http.Get` hands back on success: the status code, the status text,
and what `ioutil.ReadAll(resp.Body)` yields (the body text or a read error). -/
structure HttpResponse where
  StatusCode : Int
  Status : String
  Body : Except String String
  deriving DecidableEq

/-- What `fetchVersion` returns for a given answer of `http.Get`
(chrome.go:131-143). -/
def fetchOutcome : Except String HttpResponse → Except String String
  | .error err => .error ("request error: " ++ err)
  | .ok resp =>
    if resp.StatusCode ≠ StatusOK then
      .error ("unsuccessful response: " ++ formatInt resp.StatusCode ++ " " ++ resp.Status)
    else
      match resp.Body with
      | .error err => .error ("read driver version: " ++ err)
      | .ok data => .ok data

/-- The error-returning steps of `Chrome.Build`, in source order; each carries
the label of its `fmt.Errorf`. -/
inductive Stage where
  | createDevTmpDir
  | browserSource
  | movePackage
  | initDevImage
  | buildDevImage
  | createTmpDir
  | initImage
  | downloadChromedriver
  | buildImage
  | testImage
  | pushImage
  deriving DecidableEq, Repr

/-- Position of a stage in the source text of `Chrome.Build`. -/
def Stage.rank : Stage → Nat
  | .createDevTmpDir => 0
  | .browserSource => 1
  | .movePackage => 2
  | .initDevImage => 3
  | .buildDevImage => 4
  | .createTmpDir => 5
  | .initImage => 6
  | .downloadChromedriver => 7
  | .buildImage => 8
  | .testImage => 9
  | .pushImage => 10

/-- The text before `: %v` in the stage's `fmt.Errorf` (chrome.go:26-93). -/
def Stage.label : Stage → String
  | .createDevTmpDir => "create dev temporary dir"
  | .browserSource => "invalid browser source"
  | .movePackage => "move package"
  | .initDevImage => "init dev image"
  | .buildDevImage => "build dev image"
  | .createTmpDir => "create temporary dir"
  | .initImage => "init image"
  | .downloadChromedriver => "failed to download Chromedriver"
  | .buildImage => "build image"
  | .testImage => "test image"
  | .pushImage => "push image"

/-- One call to a collaborator, with its arguments and what it returned. -/
inductive Call where
  | tmpDir (res : Except String String)
  | Prepare (res : Except String (String × String))
  | Rename (oldpath newpath : String) (err : Option String)
  | NewImage (srcDir destDir : String) (req : Requirements) (res : Except String Image)
  | Build (image : Image) (err : Option String)
  | Test (image : Image) (testsDir browser version : String) (err : Option String)
  | Push (image : Image) (err : Option String)
  | httpGet (url : String) (res : Except String HttpResponse)
  | downloadDriver (url binary dir : String) (res : Except String String)
  deriving DecidableEq

/-- A logged collaborator call: the stage of `Chrome.Build` it was made in and
the call itself. -/
structure Event where
  stage : Stage
  call : Call
  deriving DecidableEq

/-- Whether the call went through without error; for a metadata request,
whether `fetchVersion` got a version out of it. -/
def Call.succeeded : Call → Bool
  | .tmpDir res => res.toBool
  | .Prepare res => res.toBool
  | .Rename _ _ err => err.isNone
  | .NewImage _ _ _ res => res.toBool
  | .Build _ err => err.isNone
  | .Test _ _ _ _ err => err.isNone
  | .Push _ err => err.isNone
  | .httpGet _ res => (fetchOutcome res).toBool
  | .downloadDriver _ _ _ res => res.toBool

/-- Whether the call is a network request for driver metadata (`http.Get`). -/
def Call.isFetch : Call → Bool
  | .httpGet _ _ => true
  | _ => false

/-- Whether the call is a driver download (`downloadDriver`). -/
def Call.isDownload : Call → Bool
  | .downloadDriver _ _ _ _ => true
  | _ => false

/-- Whether the call creates a temporary directory (`tmpDir`). -/
def Call.isTmpDir : Call → Bool
  | .tmpDir _ => true
  | _ => false

/-- Whether the call constructs an image (`NewImage`). -/
def Call.isNewImage : Call → Bool
  | .NewImage _ _ _ _ => true
  | _ => false

/-- The collaborators of `chrome.go`, none of which is defined in it. An
effectful collaborator answers from the history of calls made so far, so two
calls with equal arguments may answer differently. `extractVersion`,
`filepathJoin` (Go `filepath.Join`) and `Quote` (Go `strconv.Quote`) are pure
functions. -/
structure World where
  tmpDir : List Event → Except String String
  Prepare : List Event → Except String (String × String)
  Rename : List Event → String → String → Option String
  NewImage : List Event → String → String → Requirements → Except String Image
  ImageBuild : List Event → Image → Option String
  ImageTest : List Event → Image → String → String → String → Option String
  ImagePush : List Event → Image → Option String
  httpGet : List Event → String → Except String HttpResponse
  downloadDriver : List Event → String → String → String → Except String String
  extractVersion : String → String
  filepathJoin : String → String → String
  Quote : String → String

/-! ## Effects -/

/-- An effectful computation: from the history of collaborator calls to the
extended history and the value, `none` being a run-time panic. -/
def M (α : Type) : Type := List Event → List Event × Option α

/-- Return a value without calling anything. -/
def M.pure {α : Type} (a : α) : M α := fun h => (h, some a)

/-- Sequencing; a panic ends the computation. -/
def M.bind {α β : Type} (x : M α) (f : α → M β) : M β := fun h =>
  match x h with
  | (h1, none) => (h1, none)
  | (h1, some a) => f a h1

instance : Monad M where
  pure := M.pure
  bind := M.bind

/-- A pure computation that may panic. -/
def M.ofOption {α : Type} (o : Option α) : M α := fun h => (h, o)

/-- Call a collaborator: ask it with the current history and log the call. -/
def M.call {ρ : Type} (stage : Stage) (ask : List Event → ρ) (mk : ρ → Call) : M ρ :=
  fun h => (h ++ [⟨stage, mk (ask h)⟩], some (ask h))

/-- Go `err.Error()` of the `*strconv.NumError` that `strconv.Atoi` returns. -/
def NumError.text (w : World) (num : String) : NumError → String
  | .malformed => "strconv.Atoi: parsing " ++ w.Quote num ++ ": invalid syntax"
  | .outOfRange => "strconv.Atoi: parsing " ++ w.Quote num ++ ": value out of range"

/-! ## The source functions -/

/-- Source `Chrome.channelToBuildArgs` (chrome.go:99-108). -/
def Chrome.channelToBuildArgs (c : Chrome) : List String :=
  if c.BrowserChannel = "beta" then
    ["PACKAGE=google-chrome-beta", "INSTALL_DIR=chrome-beta"]
  else if c.BrowserChannel = "dev" then
    ["PACKAGE=google-chrome-unstable", "INSTALL_DIR=chrome-unstable"]
  else
    []

/-- Source closure `fetchVersion` (chrome.go:130-144). -/
def fetchVersion (w : World) (url : String) : M (Except String String) := do
  match ← M.call .downloadChromedriver (fun h => w.httpGet h url) (Call.httpGet url) with
  | .error err => pure (.error ("request error: " ++ err))
  | .ok resp =>
    if resp.StatusCode ≠ StatusOK then
      pure (.error ("unsuccessful response: " ++ formatInt resp.StatusCode ++ " " ++ resp.Status))
    else
      match resp.Body with
      | .error err => pure (.error ("read driver version: " ++ err))
      | .ok data => pure (.ok data)

/-- The loop `for i := chromeMajorVersion; i > 0; i--` (chrome.go:152-158),
by the current value of `i`: `some v` is the early `return v, nil`, `none`
is falling out of the loop. -/
def fetchMajorLoop (w : World) (baseUrl : String) (chromeMajorVersion : Int) : Nat → M (Option String)
  | 0 => pure none
  | i + 1 => do
    let u := baseUrl ++ ("LATEST_RELEASE_" ++ formatInt chromeMajorVersion)
    match ← fetchVersion w u with
    | .ok v => pure (some v)
    | .error _ => fetchMajorLoop w baseUrl chromeMajorVersion i

/-- Source `Chrome.getLatestChromeDriver` (chrome.go:129-166). -/
def Chrome.getLatestChromeDriver (c : Chrome) (w : World) (baseUrl pkgVersion : String) :
    M (Except String String) := do
  if c.BrowserChannel = "dev" then
    let major ← M.ofOption (majorVersion pkgVersion)
    match Atoi major with
    | .error err => pure (.error ("chrome major version: " ++ err.text w major))
    | .ok chromeMajorVersion =>
      match ← fetchMajorLoop w baseUrl chromeMajorVersion chromeMajorVersion.toNat with
      | some v => pure (.ok v)
      | none =>
        let u := baseUrl ++ "LATEST_RELEASE"
        fetchVersion w u
  else
    let chromeBuildVersion ← M.ofOption (buildVersion pkgVersion)
    let u := baseUrl ++ ("LATEST_RELEASE_" ++ chromeBuildVersion)
    fetchVersion w u

/-- The statements of `Chrome.downloadChromeDriver` after the version is
settled (chrome.go:121-126). -/
def downloadVersion (w : World) (dir version : String) : M (Except String String) := do
  let u := "http://chromedriver.storage.googleapis.com/" ++ version ++ "/chromedriver_linux64.zip"
  match ← M.call .downloadChromedriver (fun h => w.downloadDriver h u chromeDriverBinary dir)
      (Call.downloadDriver u chromeDriverBinary dir) with
  | .error err => pure (.error ("download Chromedriver: " ++ err))
  | .ok _ => pure (.ok version)

/-- Source `Chrome.downloadChromeDriver` (chrome.go:110-127). -/
def Chrome.downloadChromeDriver (c : Chrome) (w : World) (dir pkgVersion : String) :
    M (Except String String) := do
  let version := c.DriverVersion
  if version = LatestVersion then
    let baseUrl := "https://chromedriver.storage.googleapis.com/"
    match ← c.getLatestChromeDriver w baseUrl pkgVersion with
    | .error err => pure (.error ("latest chromedriver version: " ++ err))
    | .ok v => downloadVersion w dir v
  else
    downloadVersion w dir version

/-- Source `Chrome.Build` (chrome.go:21-97): the returned `error`, `none`
being `nil`. -/
def Chrome.Build (c : Chrome) (w : World) : M (Option String) := do
  -- Build dev image
  match ← M.call .createDevTmpDir w.tmpDir Call.tmpDir with
  | .error err => pure (some ("create dev temporary dir: " ++ err))
  | .ok devDestDir =>
  match ← M.call .browserSource w.Prepare Call.Prepare with
  | .error err => pure (some ("invalid browser source: " ++ err))
  | .ok (pkgSrcPath, pkgVersion) =>
  let moved : String × Option String ←
    if pkgSrcPath ≠ "" then do
      let pkgDestPath := w.filepathJoin devDestDir "google-chrome.deb"
      let err ← M.call .movePackage (fun h => w.Rename h pkgSrcPath pkgDestPath)
        (Call.Rename pkgSrcPath pkgDestPath)
      pure ("chrome/local", err)
    else
      pure ("chrome/apt", none)
  let srcDir := moved.1
  match moved.2 with
  | some err => pure (some ("move package: " ++ err))
  | none =>
  let pkgTagVersion := w.extractVersion pkgVersion
  let devImageTag := "selenoid/dev_chrome:" ++ pkgTagVersion
  let devImageRequirements : Requirements :=
    { BrowserChannel := "", DriverVersion := "", NoCache := c.NoCache,
      TestsDir := "", Tags := [devImageTag] }
  match ← M.call .initDevImage (fun h => w.NewImage h srcDir devDestDir devImageRequirements)
      (Call.NewImage srcDir devDestDir devImageRequirements) with
  | .error err => pure (some ("init dev image: " ++ err))
  | .ok devImage =>
  let devBuildArgs := ["VERSION=" ++ pkgVersion]
  let devBuildArgs := devBuildArgs ++ c.channelToBuildArgs
  let devImage := { devImage with BuildArgs := devBuildArgs }
  let devImage := if pkgSrcPath ≠ "" then { devImage with FileServer := true } else devImage
  match ← M.call .buildDevImage (fun h => w.ImageBuild h devImage) (Call.Build devImage) with
  | some err => pure (some ("build dev image: " ++ err))
  | none =>
  -- Build main image
  match ← M.call .createTmpDir w.tmpDir Call.tmpDir with
  | .error err => pure (some ("create temporary dir: " ++ err))
  | .ok destDir =>
  match ← M.call .initImage (fun h => w.NewImage h "chrome" destDir c.toRequirements)
      (Call.NewImage "chrome" destDir c.toRequirements) with
  | .error err => pure (some ("init image: " ++ err))
  | .ok image =>
  let image := { image with BuildArgs := image.BuildArgs ++ ["VERSION=" ++ pkgTagVersion] }
  match ← c.downloadChromeDriver w image.Dir pkgTagVersion with
  | .error err => pure (some ("failed to download Chromedriver: " ++ err))
  | .ok driverVersion =>
  let image := { image with Labels := ["driver=chromedriver:" ++ driverVersion] }
  match ← M.call .buildImage (fun h => w.ImageBuild h image) (Call.Build image) with
  | some err => pure (some ("build image: " ++ err))
  | none =>
  match ← M.call .testImage (fun h => w.ImageTest h image c.TestsDir "chrome" pkgTagVersion)
      (Call.Test image c.TestsDir "chrome" pkgTagVersion) with
  | some err => pure (some ("test image: " ++ err))
  | none =>
  match ← M.call .pushImage (fun h => w.ImagePush h image) (Call.Push image) with
  | some err => pure (some ("push image: " ++ err))
  | none => pure none

/-- The run of `Chrome.Build` from an empty history: the collaborator calls
made, in order, and the result (`none`: panic; `some none`: `nil`;
`some (some msg)`: an error with message `msg`). -/
def Chrome.run (c : Chrome) (w : World) : List Event × Option (Option String) :=
  c.Build w []

/-- The event logged by a metadata fetch of `url` answered by `res`. -/
def fetchEvent (url : String) (res : Except String HttpResponse) : Event :=
  ⟨.downloadChromedriver, .httpGet url res⟩

/-- The event logged by `downloadDriver` for driver version `version` into
`dir`, answered by `res` (URL and binary name of chrome.go:121-122). -/
def downloadEvent (version dir : String) (res : Except String String) : Event :=
  ⟨.downloadChromedriver,
    .downloadDriver ("http://chromedriver.storage.googleapis.com/" ++ version ++ "/chromedriver_linux64.zip")
      chromeDriverBinary dir res⟩

/-- Run from history `h`, the computation `x` ends in a history and a result
that satisfy `Q`. -/
structure M.sat {α : Type} (x : M α) (h : List Event) (Q : List Event → Option α → Prop) :
    Prop where
  holds : Q (x h).1 (x h).2

/-! ## Stage discipline -/

/-- Two logged calls are in source order: the first belongs to an earlier
stage, or both belong to driver resolution and download. -/
def StageRel (a b : Event) : Prop :=
  a.stage.rank < b.stage.rank
    ∨ (a.stage = .downloadChromedriver ∧ b.stage = .downloadChromedriver)

/-- Stage `st` may start when the stages of rank below `n` are complete:
it is the next one, or the optional package move is skipped. -/
def Jump (n : Nat) (st : Stage) : Prop :=
  n = st.rank ∨ (n = 2 ∧ st = .initDevImage)

instance (n : Nat) (st : Stage) : Decidable (Jump n st) :=
  inferInstanceAs (Decidable (n = st.rank ∨ (n = 2 ∧ st = .initDevImage)))

/-- The collaborator that a stage of `Chrome.Build` calls (chrome.go:24-91):
which calls may be logged under which stage. -/
def Stage.admits : Stage → Call → Bool
  | .createDevTmpDir, .tmpDir _ => true
  | .browserSource, .Prepare _ => true
  | .movePackage, .Rename _ _ _ => true
  | .initDevImage, .NewImage srcDir _ _ _ => srcDir == "chrome/apt" || srcDir == "chrome/local"
  | .buildDevImage, .Build _ _ => true
  | .createTmpDir, .tmpDir _ => true
  | .initImage, .NewImage srcDir _ _ _ => srcDir == "chrome"
  | .downloadChromedriver, .httpGet _ _ => true
  | .downloadChromedriver, .downloadDriver _ _ _ _ => true
  | .buildImage, .Build _ _ => true
  | .testImage, .Test _ _ _ _ _ => true
  | .pushImage, .Push _ _ => true
  | _, _ => false

/-- The one failure of `Chrome.Build` that no collaborator reports: on the dev
channel with driver version "latest", the major segment of the tag version of
the prepared package does not parse as an integer (chrome.go:148-151), so
driver resolution fails before any fetch. -/
def MajorParseFails (c : Chrome) (w : World) (trace : List Event) : Prop :=
  c.DriverVersion = LatestVersion ∧ c.BrowserChannel = "dev"
  ∧ (∀ e ∈ trace, e.stage ≠ .downloadChromedriver)
  ∧ ∃ path p major err,
      (⟨.browserSource, .Prepare (.ok (path, p))⟩ : Event) ∈ trace
      ∧ majorVersion (w.extractVersion p) = some major
      ∧ Atoi major = .error err

/-- The history `h` of a run in which every stage of rank below `n` is
complete and no later stage has started. -/
structure Inv (n : Nat) (h : List Event) : Prop where
  ordered : h.Pairwise StageRel
  kinds : ∀ e ∈ h, e.stage.admits e.call = true
  bound : ∀ e ∈ h, e.stage.rank < n
  failed : ∀ e ∈ h, e.call.succeeded = false → e.call.isFetch = true
  complete : ∀ s : Stage, s ≠ .movePackage → s.rank < n →
    ∃ e ∈ h, e.stage = s ∧ e.call.succeeded = true
      ∧ (s = .downloadChromedriver → e.call.isDownload = true)

/-- The stage discipline of a finished run of `Chrome.Build`, with its trace
and result. -/
structure StagesOK (c : Chrome) (w : World) (trace : List Event)
    (r : Option (Option String)) : Prop where
  noPanic : r ≠ none
  ordered : trace.Pairwise StageRel
  kinds : ∀ e ∈ trace, e.stage.admits e.call = true
  labelled : ∀ msg, r = some (some msg) → ∃ (s : Stage) (detail : String),
    msg = s.label ++ ": " ++ detail
    ∧ (∀ e ∈ trace, e.stage.rank ≤ s.rank)
    ∧ (∀ s1 : Stage, s1 ≠ .movePackage → s1.rank < s.rank →
        ∃ e ∈ trace, e.stage = s1 ∧ e.call.succeeded = true)
    ∧ ((∃ e, trace.getLast? = some e ∧ e.stage = s ∧ e.call.succeeded = false)
        ∨ (s = .downloadChromedriver ∧ MajorParseFails c w trace))
  nilIff : r = some none ↔ ∃ e ∈ trace, e.stage = .pushImage ∧ e.call.succeeded = true
  earlier : ∀ e ∈ trace, ∀ s : Stage, s ≠ .movePackage → s.rank < e.stage.rank →
    ∃ e1 ∈ trace, e1.stage = s ∧ e1.call.succeeded = true
      ∧ (s = .downloadChromedriver → e1.call.isDownload = true)
  stops : ∀ e ∈ trace, e.call.succeeded = false →
    e.call.isFetch = true ∨ (trace.getLast? = some e ∧ ∃ msg, r = some (some msg))

/-! ## Concrete collaborators -/

/-- A world in which every collaborator succeeds: the browser source offers
version 106.0.5249.61 from the package repository, the tag version is the
major version, and the metadata endpoint answers with a driver version. -/
def demoWorld : World where
  tmpDir := fun h => if h.isEmpty then .ok "/tmp/dev" else .ok "/tmp/final"
  Prepare := fun _ => .ok ("", "106.0.5249.61")
  Rename := fun _ _ _ => none
  NewImage := fun _ _ destDir _ => .ok ⟨destDir, [], [], false⟩
  ImageBuild := fun _ _ => none
  ImageTest := fun _ _ _ _ _ => none
  ImagePush := fun _ _ => none
  httpGet := fun _ _ => .ok ⟨200, "200 OK", .ok "106.0.5249.19"⟩
  downloadDriver := fun _ _ _ dir => .ok (dir ++ "/chromedriver")
  extractVersion := fun v => (majorVersion v).getD v
  filepathJoin := fun a b => a ++ "/" ++ b
  Quote := String.quote

/-- The world of `demoWorld` with a browser source whose `Prepare` fails. -/
def brokenSourceWorld : World :=
  { demoWorld with Prepare := fun _ => .error "source unavailable" }

/-- The world of `demoWorld` without network: every metadata request fails. -/
def offlineWorld : World :=
  { demoWorld with httpGet := fun _ _ => .error "no network" }

/-- The world of `demoWorld` where the dev image cannot be constructed. -/
def noDevImageWorld : World :=
  { demoWorld with
    NewImage := fun _ srcDir destDir _ =>
      if srcDir = "chrome" then .ok ⟨destDir, [], [], false⟩ else .error "no build context" }

/-- The world of `demoWorld` where `NewImage` hands out images that already
carry a label and a build argument. -/
def labelledWorld : World :=
  { demoWorld with
    NewImage := fun _ _ destDir _ => .ok ⟨destDir, ["HTTP_PROXY=proxy"], ["maintainer=qa"], false⟩ }

/-- A configuration with the given channel and driver version. -/
def demoChrome (channel driver : String) : Chrome :=
  { BrowserChannel := channel, DriverVersion := driver, NoCache := true,
    TestsDir := "tests", Tags := ["selenoid/chrome:106.0"] }

/-! ## Splitting and joining -/

theorem splitChars_ne_nil (sep : Char) (s : List Char) : splitChars sep s ≠ [] := by
  induction s with
  | nil => simp [splitChars]
  | cons c cs ih =>
    unfold splitChars
    split
    · simp
    · split
      · simp
      · simp

theorem splitChars_length_pos (sep : Char) (s : List Char) : 0 < (splitChars sep s).length :=
  List.length_pos.mpr (splitChars_ne_nil sep s)

theorem joinChars_cons_cons (sep p q : List Char) (ps : List (List Char)) :
    joinChars sep (p :: q :: ps) = p ++ sep ++ joinChars sep (q :: ps) := rfl

theorem joinChars_cons_of_ne_nil (sep p : List Char) (ps : List (List Char)) (h : ps ≠ []) :
    joinChars sep (p :: ps) = p ++ sep ++ joinChars sep ps := by
  cases ps with
  | nil => exact absurd rfl h
  | cons q qs => rfl

theorem joinChars_splitChars (sep : Char) (s : List Char) :
    joinChars [sep] (splitChars sep s) = s := by
  induction s with
  | nil => simp [splitChars, joinChars]
  | cons c cs ih =>
    unfold splitChars
    split
    · next h =>
      rw [joinChars_cons_of_ne_nil _ _ _ (splitChars_ne_nil sep cs), ih]
      simp [h]
    · split
      · next h => exact absurd h (splitChars_ne_nil sep cs)
      · next p ps h =>
        rw [h] at ih
        cases ps with
        | nil => simpa [joinChars] using ih
        | cons q qs =>
          rw [joinChars_cons_cons] at ih ⊢
          simp [← ih]

theorem splitChars_sep_free (sep : Char) (s : List Char) :
    ∀ p ∈ splitChars sep s, sep ∉ p := by
  induction s with
  | nil => simp [splitChars]
  | cons c cs ih =>
    unfold splitChars
    split
    · intro p hp
      rcases List.mem_cons.mp hp with rfl | hp
      · simp
      · exact ih p hp
    · next hc =>
      split
      · next h => exact absurd h (splitChars_ne_nil sep cs)
      · next p ps h =>
        rw [h] at ih
        intro q hq
        rcases List.mem_cons.mp hq with rfl | hq
        · intro hmem
          rcases List.mem_cons.mp hmem with heq | hmem
          · exact hc heq.symm
          · exact ih p (List.mem_cons_self _ _) hmem
        · exact ih q (List.mem_cons_of_mem _ hq)

theorem splitChars_append_sep (sep : Char) (p rest : List Char) (hp : sep ∉ p) :
    splitChars sep (p ++ sep :: rest) = p :: splitChars sep rest := by
  induction p with
  | nil => simp [splitChars]
  | cons c cs ih =>
    have hc : c ≠ sep := fun h => hp (by simp [h])
    have hcs : sep ∉ cs := fun h => hp (List.mem_cons_of_mem _ h)
    simp only [List.cons_append]
    rw [splitChars, if_neg hc, ih hcs]

theorem splitChars_of_sep_free (sep : Char) (p : List Char) (hp : sep ∉ p) :
    splitChars sep p = [p] := by
  induction p with
  | nil => simp [splitChars]
  | cons c cs ih =>
    have hc : c ≠ sep := fun h => hp (by simp [h])
    have hcs : sep ∉ cs := fun h => hp (List.mem_cons_of_mem _ h)
    rw [splitChars, if_neg hc, ih hcs]

theorem splitChars_joinChars (sep : Char) (ps : List (List Char)) (hne : ps ≠ [])
    (hfree : ∀ p ∈ ps, sep ∉ p) : splitChars sep (joinChars [sep] ps) = ps := by
  induction ps with
  | nil => exact absurd rfl hne
  | cons p qs ih =>
    cases qs with
    | nil => simpa [joinChars] using splitChars_of_sep_free sep p (hfree p (List.mem_cons_self _ _))
    | cons q qs =>
      rw [joinChars_cons_cons]
      have := ih (by simp) (fun r hr => hfree r (List.mem_cons_of_mem _ hr))
      simp only [List.append_assoc, List.singleton_append]
      rw [splitChars_append_sep sep p _ (hfree p (List.mem_cons_self _ _)), this]


/-! ### String-level facts -/

theorem Split_length_pos (v : String) : 0 < (Split v '.').length := by
  simp [Split, splitChars_length_pos]

theorem Join_Split (v : String) : Join (Split v '.') "." = v := by
  simp only [Join, Split, List.map_map]
  have h : (String.data ∘ String.mk) = id := by funext x; rfl
  rw [h, List.map_id]
  show String.mk (joinChars ['.'] (splitChars '.' v.data)) = v
  rw [joinChars_splitChars]

theorem Split_Join_take (v : String) (k : Nat) (hk : 1 ≤ k) :
    Split (Join ((Split v '.').take k) ".") '.' = (Split v '.').take k := by
  simp only [Join, Split, List.map_map, ← List.map_take]
  have h : (String.data ∘ String.mk) = id := by funext x; rfl
  rw [h, List.map_id]
  show List.map String.mk (splitChars '.' (joinChars ['.'] (List.take k (splitChars '.' v.data)))) = _
  rw [splitChars_joinChars]
  · intro hnil
    have hpos := splitChars_length_pos '.' v.data
    have := congrArg List.length hnil
    rw [List.length_take, List.length_nil] at this
    omega
  · intro p hp
    exact splitChars_sep_free '.' v.data p (List.mem_of_mem_take hp)

theorem versionN_of_nonneg (v : String) (n : Int) (hn : 0 ≤ n) :
    versionN v n = some (truncate v n.toNat) := by
  unfold versionN truncate sliceTo
  by_cases h : n ≤ ((Split v '.').length : Int)
  · have h2 : n.toNat ≤ (Split v '.').length := by omega
    simp [h, hn, h2]
  · have h2 : ¬ n.toNat ≤ (Split v '.').length := by omega
    simp [h, h2]

theorem versionN_of_neg (v : String) (n : Int) (hn : n < 0) : versionN v n = none := by
  unfold versionN sliceTo
  have h : n ≤ ((Split v '.').length : Int) := by omega
  have h2 : ¬ 0 ≤ n := by omega
  simp [h, h2]

theorem truncate_truncate (v : String) (m n : Nat) (hm : 1 ≤ m) :
    truncate (truncate v m) n = truncate v (min m n) := by
  by_cases h : m ≤ (Split v '.').length
  · have hu : truncate v m = Join ((Split v '.').take m) "." := by simp [truncate, h]
    rw [hu]
    unfold truncate
    simp only [Split_Join_take v m hm, List.length_take, List.take_take]
    by_cases hnm : n ≤ m
    · have h1 : n ≤ min m (Split v '.').length := by omega
      have h2 : min m n ≤ (Split v '.').length := by omega
      simp [h1, h2, Nat.min_comm]
    · have h1 : ¬ n ≤ min m (Split v '.').length := by omega
      have h3 : min m n = m := by omega
      simp [h1, h3, h, hnm]
  · have hu : truncate v m = v := by simp [truncate, h]
    rw [hu]
    by_cases hnm : n ≤ m
    · rw [Nat.min_eq_right hnm]
    · have h3 : min m n = m := by omega
      have h4 : ¬ n ≤ (Split v '.').length := by omega
      rw [h3, hu]
      simp [truncate, h4]

/-! ## Running effectful code -/

@[simp] theorem M.run_pure {α : Type} (a : α) (h : List Event) :
    (pure a : M α) h = (h, some a) := rfl

@[simp] theorem M.run_bind {α β : Type} (x : M α) (f : α → M β) (h : List Event) :
    (x >>= f) h = match x h with
      | (h1, none) => (h1, none)
      | (h1, some a) => f a h1 := rfl

@[simp] theorem M.run_call {ρ : Type} (stage : Stage) (ask : List Event → ρ) (mk : ρ → Call)
    (h : List Event) :
    M.call stage ask mk h = (h ++ [⟨stage, mk (ask h)⟩], some (ask h)) := rfl

@[simp] theorem M.run_ofOption {α : Type} (o : Option α) (h : List Event) :
    M.ofOption o h = (h, o) := rfl

theorem fetchVersion_run (w : World) (url : String) (h : List Event) :
    fetchVersion w url h
      = (h ++ [fetchEvent url (w.httpGet h url)], some (fetchOutcome (w.httpGet h url))) := by
  unfold fetchVersion
  simp only [M.run_bind, M.run_call]
  unfold fetchOutcome fetchEvent
  cases w.httpGet h url with
  | error e => rfl
  | ok resp =>
    dsimp only
    by_cases hs : resp.StatusCode ≠ StatusOK
    · simp only [if_pos hs]; rfl
    · simp only [if_neg hs]
      cases resp.Body <;> rfl

theorem downloadVersion_run (w : World) (dir version : String) (h : List Event) :
    downloadVersion w dir version h
      = (h ++ [downloadEvent version dir (w.downloadDriver h
            ("http://chromedriver.storage.googleapis.com/" ++ version ++ "/chromedriver_linux64.zip")
            chromeDriverBinary dir)],
         some (match w.downloadDriver h
            ("http://chromedriver.storage.googleapis.com/" ++ version ++ "/chromedriver_linux64.zip")
            chromeDriverBinary dir with
           | .ok _ => .ok version
           | .error err => .error ("download Chromedriver: " ++ err))) := by
  unfold downloadVersion downloadEvent
  simp only [M.run_bind, M.run_call]
  cases w.downloadDriver h _ chromeDriverBinary dir <;> rfl

/-- The loop either returns the body of a successful fetch after fewer than
`k` failures, or falls through after exactly `k` failures; all its fetches go
to the one URL. -/
theorem fetchMajorLoop_run (w : World) (baseUrl : String) (cmv : Int) (k : Nat) (h : List Event) :
    ∃ failed : List Event,
      (∀ e ∈ failed, ∃ res msg,
          e = fetchEvent (baseUrl ++ ("LATEST_RELEASE_" ++ formatInt cmv)) res
          ∧ fetchOutcome res = .error msg)
      ∧ ((∃ res body, failed.length < k ∧ fetchOutcome res = .ok body
            ∧ fetchMajorLoop w baseUrl cmv k h
              = (h ++ failed ++ [fetchEvent (baseUrl ++ ("LATEST_RELEASE_" ++ formatInt cmv)) res],
                 some (some body)))
        ∨ (failed.length = k ∧ fetchMajorLoop w baseUrl cmv k h = (h ++ failed, some none))) := by
  induction k generalizing h with
  | zero => exact ⟨[], by simp, Or.inr ⟨rfl, by simp [fetchMajorLoop]; rfl⟩⟩
  | succ k ih =>
    unfold fetchMajorLoop
    simp only [M.run_bind, fetchVersion_run]
    cases hout : fetchOutcome (w.httpGet h (baseUrl ++ ("LATEST_RELEASE_" ++ formatInt cmv))) with
    | ok body =>
      exact ⟨[], by simp, Or.inl ⟨_, body, by simp, hout, by simp; rfl⟩⟩
    | error msg =>
      obtain ⟨failed, hall, hcase⟩ := ih (h ++ [fetchEvent (baseUrl ++ ("LATEST_RELEASE_" ++ formatInt cmv))
        (w.httpGet h (baseUrl ++ ("LATEST_RELEASE_" ++ formatInt cmv)))])
      refine ⟨fetchEvent (baseUrl ++ ("LATEST_RELEASE_" ++ formatInt cmv))
        (w.httpGet h (baseUrl ++ ("LATEST_RELEASE_" ++ formatInt cmv))) :: failed, ?_, ?_⟩
      · intro e he
        rcases List.mem_cons.mp he with rfl | he
        · exact ⟨_, msg, rfl, hout⟩
        · exact hall e he
      · rcases hcase with ⟨res, body, hlen, hok, hrun⟩ | ⟨hlen, hrun⟩
        · exact Or.inl ⟨res, body, by simp; omega, hok, by simp [hrun]⟩
        · exact Or.inr ⟨by simp [hlen], by simp [hrun]⟩

theorem M.sat_pure {α : Type} (a : α) (h : List Event) (Q : List Event → Option α → Prop)
    (hq : Q h (some a)) : (pure a : M α).sat h Q := ⟨hq⟩

theorem M.sat_conseq {α : Type} (x : M α) (h : List Event) (P Q : List Event → Option α → Prop)
    (hx : x.sat h P) (hpq : ∀ h1 r, P h1 r → Q h1 r) : x.sat h Q := ⟨hpq _ _ hx.holds⟩

theorem M.sat_bind {α β : Type} (x : M α) (f : α → M β) (h : List Event)
    (Q : List Event → Option β → Prop)
    (hx : x.sat h (fun h1 r => (r = none → Q h1 none) ∧ ∀ a, r = some a → (f a).sat h1 Q)) :
    (x >>= f).sat h Q := by
  have hx := hx.holds
  constructor
  show Q (M.bind x f h).1 (M.bind x f h).2
  unfold M.bind
  rcases hr : x h with ⟨h1, _ | a⟩
  · rw [hr] at hx; exact hx.1 rfl
  · rw [hr] at hx; exact (hx.2 a rfl).holds

theorem M.sat_call_bind {ρ β : Type} (stage : Stage) (ask : List Event → ρ) (mk : ρ → Call)
    (f : ρ → M β) (h : List Event) (Q : List Event → Option β → Prop)
    (hf : ∀ r, (f r).sat (h ++ [⟨stage, mk r⟩]) Q) :
    (M.call stage ask mk >>= f).sat h Q := ⟨(hf _).holds⟩

theorem M.sat_pure_bind {α β : Type} (a : α) (f : α → M β) (h : List Event)
    (Q : List Event → Option β → Prop) (hf : (f a).sat h Q) :
    ((pure a : M α) >>= f).sat h Q := ⟨hf.holds⟩

/-! ## Driver resolution -/

theorem majorVersion_eq (v : String) : majorVersion v = some (truncate v 1) :=
  versionN_of_nonneg v 1 (by decide)

theorem buildVersion_eq (v : String) : buildVersion v = some (truncate v 3) :=
  versionN_of_nonneg v 3 (by decide)

theorem getLatestChromeDriver_dev_run (c : Chrome) (w : World) (baseUrl v major : String)
    (cmv : Int) (h : List Event) (hch : c.BrowserChannel = "dev")
    (hmaj : majorVersion v = some major) (hM : Atoi major = .ok cmv) :
    c.getLatestChromeDriver w baseUrl v h
      = match fetchMajorLoop w baseUrl cmv cmv.toNat h with
        | (h1, none) => (h1, none)
        | (h1, some (some body)) => (h1, some (.ok body))
        | (h1, some none) => fetchVersion w (baseUrl ++ "LATEST_RELEASE") h1 := by
  unfold Chrome.getLatestChromeDriver
  simp only [if_pos hch, M.run_bind, M.run_ofOption, hmaj, hM]
  rcases fetchMajorLoop w baseUrl cmv cmv.toNat h with ⟨h1, _ | _ | body⟩ <;> rfl

/-- Every run of `getLatestChromeDriver` logs metadata fetches only and does
not panic; when it returns an error, either its last fetch failed or, on the
dev channel, it made no fetch because the major version did not parse. -/
theorem getLatestChromeDriver_shape (c : Chrome) (w : World) (baseUrl v : String)
    (h : List Event) :
    ∃ (fetches : List Event) (r : Except String String),
      (∀ e ∈ fetches, ∃ url res, e = fetchEvent url res)
      ∧ c.getLatestChromeDriver w baseUrl v h = (h ++ fetches, some r)
      ∧ (∀ msg, r = .error msg →
          (∃ e, fetches.getLast? = some e ∧ e.call.succeeded = false)
          ∨ (fetches = [] ∧ c.BrowserChannel = "dev"
              ∧ ∃ major err, majorVersion v = some major ∧ Atoi major = .error err)) := by
  by_cases hch : c.BrowserChannel = "dev"
  · cases hA : Atoi (truncate v 1) with
    | error err =>
      refine ⟨[], .error ("chrome major version: " ++ err.text w (truncate v 1)), by simp, ?_,
        fun _ _ => Or.inr ⟨rfl, hch, _, err, majorVersion_eq v, hA⟩⟩
      unfold Chrome.getLatestChromeDriver
      simp only [if_pos hch, M.run_bind, M.run_ofOption, majorVersion_eq, hA, List.append_nil]
      rfl
    | ok cmv =>
      rw [getLatestChromeDriver_dev_run c w baseUrl v _ cmv h hch (majorVersion_eq v) hA]
      obtain ⟨failed, hall, hcase⟩ := fetchMajorLoop_run w baseUrl cmv cmv.toNat h
      have hall2 : ∀ e ∈ failed, ∃ url res, e = fetchEvent url res := fun e he => by
        obtain ⟨res, _, he2, _⟩ := hall e he
        exact ⟨_, res, he2⟩
      rcases hcase with ⟨res, body, _, _, hrun⟩ | ⟨_, hrun⟩
      · refine ⟨failed ++ [fetchEvent (baseUrl ++ ("LATEST_RELEASE_" ++ formatInt cmv)) res],
          .ok body, ?_, ?_, ?_⟩
        · intro e he
          rcases List.mem_append.mp he with he | he
          · exact hall2 e he
          · exact ⟨_, res, by simpa using he⟩
        · rw [hrun, List.append_assoc]
        · intro msg hmsg
          cases hmsg
      · refine ⟨failed ++ [fetchEvent (baseUrl ++ "LATEST_RELEASE")
            (w.httpGet (h ++ failed) (baseUrl ++ "LATEST_RELEASE"))],
          fetchOutcome (w.httpGet (h ++ failed) (baseUrl ++ "LATEST_RELEASE")), ?_, ?_, ?_⟩
        · intro e he
          rcases List.mem_append.mp he with he | he
          · exact hall2 e he
          · exact ⟨_, _, by simpa using he⟩
        · rw [hrun]
          simp only [fetchVersion_run, List.append_assoc]
        · intro msg hmsg
          refine Or.inl ⟨_, List.getLast?_concat _, ?_⟩
          simp [fetchEvent, Call.succeeded, hmsg, Except.toBool]
  · refine ⟨[fetchEvent (baseUrl ++ ("LATEST_RELEASE_" ++ truncate v 3))
        (w.httpGet h (baseUrl ++ ("LATEST_RELEASE_" ++ truncate v 3)))],
      fetchOutcome (w.httpGet h (baseUrl ++ ("LATEST_RELEASE_" ++ truncate v 3))), ?_, ?_, ?_⟩
    · intro e he
      exact ⟨_, _, by simpa using he⟩
    · unfold Chrome.getLatestChromeDriver
      simp only [if_neg hch, M.run_bind, M.run_ofOption, buildVersion_eq, fetchVersion_run]
    · intro msg hmsg
      refine Or.inl ⟨_, rfl, ?_⟩
      simp [fetchEvent, Call.succeeded, hmsg, Except.toBool]

/-- Every run of `downloadChromeDriver` logs metadata fetches, then at most
one download as its last call; it returns a version exactly when that
download succeeded, and never panics. -/
theorem downloadChromeDriver_shape (c : Chrome) (w : World) (dir v : String) (h : List Event) :
    (c.downloadChromeDriver w dir v).sat h (fun h1 r =>
      ∃ fetches : List Event,
        (∀ e ∈ fetches, e.stage = .downloadChromedriver ∧ e.call.isFetch = true
           ∧ e.call.isDownload = false)
        ∧ ((∃ msg, h1 = h ++ fetches ∧ r = some (.error msg))
          ∨ (∃ ver err, h1 = h ++ fetches ++ [downloadEvent ver dir (.error err)]
              ∧ r = some (.error ("download Chromedriver: " ++ err)))
          ∨ (∃ ver path, h1 = h ++ fetches ++ [downloadEvent ver dir (.ok path)]
              ∧ r = some (.ok ver)))) := by
  constructor
  unfold Chrome.downloadChromeDriver
  have hfe : ∀ fetches : List Event, (∀ e ∈ fetches, ∃ url res, e = fetchEvent url res) →
      ∀ e ∈ fetches, e.stage = .downloadChromedriver ∧ e.call.isFetch = true
        ∧ e.call.isDownload = false := by
    intro fetches hall e he
    obtain ⟨url, res, rfl⟩ := hall e he
    exact ⟨rfl, rfl, rfl⟩
  by_cases hv : c.DriverVersion = LatestVersion
  · simp only [if_pos hv, M.run_bind]
    obtain ⟨fetches, r, hall, hrun, _⟩ :=
      getLatestChromeDriver_shape c w "https://chromedriver.storage.googleapis.com/" v h
    rw [hrun]
    cases r with
    | error msg => exact ⟨fetches, hfe _ hall, Or.inl ⟨_, rfl, rfl⟩⟩
    | ok ver =>
      refine ⟨fetches, hfe _ hall, Or.inr ?_⟩
      simp only [downloadVersion_run]
      cases w.downloadDriver (h ++ fetches)
        ("http://chromedriver.storage.googleapis.com/" ++ ver ++ "/chromedriver_linux64.zip")
        chromeDriverBinary dir with
      | error err => exact Or.inl ⟨ver, err, rfl, rfl⟩
      | ok path => exact Or.inr ⟨ver, path, rfl, rfl⟩
  · simp only [if_neg hv, downloadVersion_run]
    refine ⟨[], by simp, Or.inr ?_⟩
    cases w.downloadDriver h
        ("http://chromedriver.storage.googleapis.com/" ++ c.DriverVersion ++ "/chromedriver_linux64.zip")
        chromeDriverBinary dir with
    | error err => exact Or.inl ⟨c.DriverVersion, err, by simp, rfl⟩
    | ok path => exact Or.inr ⟨c.DriverVersion, path, by simp, rfl⟩

/-- Every run of `downloadChromeDriver`, with what made it fail when it
returns an error before any download. -/
theorem downloadChromeDriver_outcome (c : Chrome) (w : World) (dir v : String)
    (h : List Event) :
    (c.downloadChromeDriver w dir v).sat h (fun h1 r =>
      ∃ fetches : List Event,
        (∀ e ∈ fetches, e.stage = .downloadChromedriver ∧ e.call.isFetch = true
           ∧ e.call.isDownload = false)
        ∧ ((∃ msg, h1 = h ++ fetches ∧ r = some (.error msg)
              ∧ ((∃ e, fetches.getLast? = some e ∧ e.call.succeeded = false)
                ∨ (fetches = [] ∧ c.DriverVersion = LatestVersion ∧ c.BrowserChannel = "dev"
                    ∧ ∃ major err, majorVersion v = some major ∧ Atoi major = .error err)))
          ∨ (∃ ver err, h1 = h ++ fetches ++ [downloadEvent ver dir (.error err)]
              ∧ r = some (.error ("download Chromedriver: " ++ err)))
          ∨ (∃ ver path, h1 = h ++ fetches ++ [downloadEvent ver dir (.ok path)]
              ∧ r = some (.ok ver)))) := by
  by_cases hv : c.DriverVersion = LatestVersion
  · constructor
    unfold Chrome.downloadChromeDriver
    have hfe : ∀ fetches : List Event, (∀ e ∈ fetches, ∃ url res, e = fetchEvent url res) →
        ∀ e ∈ fetches, e.stage = .downloadChromedriver ∧ e.call.isFetch = true
          ∧ e.call.isDownload = false := by
      intro fetches hall e he
      obtain ⟨url, res, rfl⟩ := hall e he
      exact ⟨rfl, rfl, rfl⟩
    simp only [if_pos hv, M.run_bind]
    obtain ⟨fetches, r, hall, hrun, hev⟩ :=
      getLatestChromeDriver_shape c w "https://chromedriver.storage.googleapis.com/" v h
    rw [hrun]
    cases r with
    | error msg =>
      refine ⟨fetches, hfe _ hall, Or.inl ⟨_, rfl, rfl, ?_⟩⟩
      rcases hev msg rfl with hl | ⟨h1, h2, h3⟩
      · exact Or.inl hl
      · exact Or.inr ⟨h1, hv, h2, h3⟩
    | ok ver =>
      refine ⟨fetches, hfe _ hall, Or.inr ?_⟩
      simp only [downloadVersion_run]
      cases w.downloadDriver (h ++ fetches)
        ("http://chromedriver.storage.googleapis.com/" ++ ver ++ "/chromedriver_linux64.zip")
        chromeDriverBinary dir with
      | error err => exact Or.inl ⟨ver, err, rfl, rfl⟩
      | ok path => exact Or.inr ⟨ver, path, rfl, rfl⟩
  · constructor
    unfold Chrome.downloadChromeDriver
    simp only [if_neg hv, downloadVersion_run]
    refine ⟨[], by simp, Or.inr ?_⟩
    cases w.downloadDriver h
        ("http://chromedriver.storage.googleapis.com/" ++ c.DriverVersion ++ "/chromedriver_linux64.zip")
        chromeDriverBinary dir with
    | error err => exact Or.inl ⟨c.DriverVersion, err, by simp, rfl⟩
    | ok path => exact Or.inr ⟨c.DriverVersion, path, by simp, rfl⟩

/-! ## Stage invariant -/

theorem Stage.rank_inj {s t : Stage} (h : s.rank = t.rank) : s = t := by
  cases s <;> cases t <;> simp [Stage.rank] at h <;> rfl

theorem Stage.rank_le (s : Stage) : s.rank ≤ 10 := by
  cases s <;> simp [Stage.rank]

theorem Stage.admits_fetch {e : Event} (hs : e.stage = .downloadChromedriver)
    (hf : e.call.isFetch = true) : e.stage.admits e.call = true := by
  obtain ⟨st, cl⟩ := e
  simp only at hs
  subst hs
  cases cl <;> first | rfl | simp [Call.isFetch] at hf

theorem Jump.spec {n : Nat} {st : Stage} (hj : Jump n st) (s : Stage)
    (hs : s ≠ .movePackage) (hlt : s.rank < st.rank) : s.rank < n := by
  rcases hj with rfl | ⟨rfl, rfl⟩
  · exact hlt
  · cases s <;> simp [Stage.rank] at hlt hs ⊢

theorem Jump.le {n : Nat} {st : Stage} (hj : Jump n st) : n ≤ st.rank := by
  rcases hj with rfl | ⟨rfl, rfl⟩
  · exact le_rfl
  · simp [Stage.rank]

theorem Inv.nil : Inv 0 [] :=
  ⟨List.Pairwise.nil, by simp, by simp, by simp, by simp⟩

/-- The history of completed stages followed by the metadata fetches of the
driver stage is in source order. -/
theorem Inv.ordered_fetches {n : Nat} {h mid : List Event} (hinv : Inv n h)
    (hmid : ∀ e ∈ mid, e.stage = .downloadChromedriver ∧ e.call.isFetch = true
        ∧ e.call.isDownload = false)
    (h7 : mid = [] ∨ n = 7) : (h ++ mid).Pairwise StageRel := by
  rw [List.pairwise_append]
  refine ⟨hinv.ordered, ?_, ?_⟩
  · exact List.pairwise_of_forall_mem_list
      (fun a ha b hb => Or.inr ⟨(hmid a ha).1, (hmid b hb).1⟩)
  · intro a ha b hb
    rcases h7 with rfl | rfl
    · simp at hb
    · have := hinv.bound a ha
      exact Or.inl (by rw [(hmid b hb).1]; exact this)

theorem Inv.rel_new {n : Nat} {h mid : List Event} (hinv : Inv n h) (e : Event)
    (hmid : ∀ e ∈ mid, e.stage = .downloadChromedriver ∧ e.call.isFetch = true
        ∧ e.call.isDownload = false)
    (h7 : mid = [] ∨ (n = 7 ∧ e.stage = .downloadChromedriver))
    (hj : Jump n e.stage) : ∀ a ∈ h ++ mid, StageRel a e := by
  intro a ha
  rcases List.mem_append.mp ha with ha | ha
  · exact Or.inl (lt_of_lt_of_le (hinv.bound a ha) hj.le)
  · rcases h7 with rfl | ⟨_, he⟩
    · simp at ha
    · exact Or.inr ⟨(hmid a ha).1, he⟩

theorem Inv.ordered_new {n : Nat} {h mid : List Event} (hinv : Inv n h) (e : Event)
    (hmid : ∀ e ∈ mid, e.stage = .downloadChromedriver ∧ e.call.isFetch = true
        ∧ e.call.isDownload = false)
    (h7 : mid = [] ∨ (n = 7 ∧ e.stage = .downloadChromedriver))
    (hj : Jump n e.stage) : (h ++ mid ++ [e]).Pairwise StageRel := by
  rw [List.pairwise_append]
  refine ⟨hinv.ordered_fetches hmid (h7.imp id (fun x => x.1)), List.pairwise_singleton _ _, ?_⟩
  intro a ha b hb
  rw [List.mem_singleton] at hb
  subst hb
  exact hinv.rel_new _ hmid h7 hj a ha

theorem Inv.kinds_new {n : Nat} {h mid : List Event} (hinv : Inv n h) (e : Event)
    (hmid : ∀ e ∈ mid, e.stage = .downloadChromedriver ∧ e.call.isFetch = true
        ∧ e.call.isDownload = false)
    (hk : e.stage.admits e.call = true) :
    ∀ a ∈ h ++ mid ++ [e], a.stage.admits a.call = true := by
  intro a ha
  rcases List.mem_append.mp ha with ha | ha
  · rcases List.mem_append.mp ha with ha | ha
    · exact hinv.kinds a ha
    · exact Stage.admits_fetch (hmid a ha).1 (hmid a ha).2.1
  · rw [List.mem_singleton] at ha; subst ha; exact hk

theorem Inv.rank_new {n : Nat} {h mid : List Event} (hinv : Inv n h) (e : Event)
    (hmid : ∀ e ∈ mid, e.stage = .downloadChromedriver ∧ e.call.isFetch = true
        ∧ e.call.isDownload = false)
    (h7 : mid = [] ∨ (n = 7 ∧ e.stage = .downloadChromedriver))
    (hj : Jump n e.stage) : ∀ a ∈ h ++ mid ++ [e], a.stage.rank ≤ e.stage.rank := by
  intro a ha
  rcases List.mem_append.mp ha with ha | ha
  · rcases List.mem_append.mp ha with ha | ha
    · exact le_of_lt (lt_of_lt_of_le (hinv.bound a ha) hj.le)
    · rcases h7 with rfl | ⟨_, he⟩
      · simp at ha
      · rw [(hmid a ha).1, he]
  · rw [List.mem_singleton] at ha; subst ha; exact le_rfl

/-- A successful call that is not a metadata fetch completes its stage. -/
theorem Inv.stepCore {n m : Nat} {h mid : List Event} (e : Event) (hinv : Inv n h)
    (hmid : ∀ e ∈ mid, e.stage = .downloadChromedriver ∧ e.call.isFetch = true
        ∧ e.call.isDownload = false)
    (h7 : mid = [] ∨ (n = 7 ∧ e.stage = .downloadChromedriver))
    (hj : Jump n e.stage) (hk : e.stage.admits e.call = true)
    (hok : e.call.succeeded = true)
    (hdl : e.stage = .downloadChromedriver → e.call.isDownload = true)
    (hm : m = e.stage.rank + 1) : Inv m (h ++ mid ++ [e]) := by
  subst hm
  refine ⟨hinv.ordered_new e hmid h7 hj, hinv.kinds_new e hmid hk, ?_, ?_, ?_⟩
  · intro a ha
    exact Nat.lt_succ_of_le (hinv.rank_new e hmid h7 hj a ha)
  · intro a ha hfail
    rcases List.mem_append.mp ha with ha | ha
    · rcases List.mem_append.mp ha with ha | ha
      · exact hinv.failed a ha hfail
      · exact (hmid a ha).2.1
    · rw [List.mem_singleton] at ha
      subst ha
      rw [hok] at hfail
      exact absurd hfail (by simp)
  · intro s hs hlt
    by_cases hse : s.rank < e.stage.rank
    · obtain ⟨e1, he1, h1⟩ := hinv.complete s hs (hj.spec s hs hse)
      exact ⟨e1, List.mem_append_left _ (List.mem_append_left _ he1), h1⟩
    · have : s = e.stage := Stage.rank_inj (by omega)
      subst this
      exact ⟨e, by simp, rfl, hok, hdl⟩

theorem Inv.step {n m : Nat} {h : List Event} (e : Event) (hinv : Inv n h)
    (hj : Jump n e.stage) (hk : e.stage.admits e.call = true)
    (hok : e.call.succeeded = true)
    (hdl : e.stage = .downloadChromedriver → e.call.isDownload = true)
    (hm : m = e.stage.rank + 1) : Inv m (h ++ [e]) := by
  have := @Inv.stepCore n m h [] e hinv (by simp) (Or.inl rfl) hj hk hok hdl hm
  simpa using this

/-- A successful download, after any metadata fetches, completes the driver
stage. -/
theorem Inv.stepDownload {h fetches : List Event} (ver dir path : String) (hinv : Inv 7 h)
    (hall : ∀ e ∈ fetches, e.stage = .downloadChromedriver ∧ e.call.isFetch = true
        ∧ e.call.isDownload = false) :
    Inv 8 (h ++ fetches ++ [downloadEvent ver dir (.ok path)]) :=
  Inv.stepCore _ hinv hall (Or.inr ⟨rfl, rfl⟩) (Or.inl rfl) rfl rfl (fun _ => rfl) rfl

theorem Inv.no_push {n : Nat} {h : List Event} (hinv : Inv n h) (hn : n ≤ 10) :
    ¬ ∃ e ∈ h, e.stage = .pushImage ∧ e.call.succeeded = true := by
  rintro ⟨e, he, hs, _⟩
  have hlt := hinv.bound e he
  rw [hs] at hlt
  have : Stage.pushImage.rank = 10 := rfl
  omega

theorem Inv.earlier {n : Nat} {h : List Event} (hinv : Inv n h) :
    ∀ e ∈ h, ∀ s : Stage, s ≠ .movePackage → s.rank < e.stage.rank →
      ∃ e1 ∈ h, e1.stage = s ∧ e1.call.succeeded = true
        ∧ (s = .downloadChromedriver → e1.call.isDownload = true) := by
  intro e he s hs hlt
  have := hinv.bound e he
  exact hinv.complete s hs (by omega)

/-- A failing call ends the run with the label of its stage. -/
theorem StagesOK.failCore {c : Chrome} {w : World} {n : Nat} {h mid : List Event} (e : Event)
    (pre d : String) (hinv : Inv n h)
    (hmid : ∀ e ∈ mid, e.stage = .downloadChromedriver ∧ e.call.isFetch = true
        ∧ e.call.isDownload = false)
    (h7 : mid = [] ∨ (n = 7 ∧ e.stage = .downloadChromedriver))
    (hj : Jump n e.stage) (hk : e.stage.admits e.call = true)
    (hfail : e.call.succeeded = false) (hpre : pre = e.stage.label ++ ": ") :
    StagesOK c w (h ++ mid ++ [e]) (some (some (pre ++ d))) := by
  subst hpre
  have hle := hj.le
  have hmem : ∀ {a : Event}, a ∈ h → a ∈ h ++ mid ++ [e] :=
    fun ha => List.mem_append_left _ (List.mem_append_left _ ha)
  have hlow : ∀ s : Stage, s ≠ .movePackage → s.rank < e.stage.rank →
      ∃ e1 ∈ h ++ mid ++ [e], e1.stage = s ∧ e1.call.succeeded = true
        ∧ (s = .downloadChromedriver → e1.call.isDownload = true) := by
    intro s hs hlt
    obtain ⟨e1, he1, h1⟩ := hinv.complete s hs (hj.spec s hs hlt)
    exact ⟨e1, hmem he1, h1⟩
  have hrank := hinv.rank_new e hmid h7 hj
  refine ⟨by simp, hinv.ordered_new e hmid h7 hj, hinv.kinds_new e hmid hk, ?_, ?_, ?_, ?_⟩
  · intro msg hmsg
    simp only [Option.some.injEq] at hmsg
    subst hmsg
    refine ⟨e.stage, d, rfl, hrank, ?_, Or.inl ⟨e, List.getLast?_concat _, rfl, hfail⟩⟩
    intro s hs hlt
    obtain ⟨e1, he1, h1, h2, _⟩ := hlow s hs hlt
    exact ⟨e1, he1, h1, h2⟩
  · constructor
    · intro hr; simp at hr
    · rintro ⟨a, ha, hs, hok⟩
      exfalso
      rcases List.mem_append.mp ha with ha | ha
      · rcases List.mem_append.mp ha with ha | ha
        · exact hinv.no_push (le_trans hle (Stage.rank_le _)) ⟨a, ha, hs, hok⟩
        · rw [(hmid a ha).1] at hs
          exact absurd hs (by decide)
      · rw [List.mem_singleton] at ha; subst ha
        rw [hfail] at hok; exact absurd hok (by simp)
  · intro a ha s hs hlt
    exact hlow s hs (lt_of_lt_of_le hlt (hrank a ha))
  · intro a ha hf
    rcases List.mem_append.mp ha with ha | ha
    · rcases List.mem_append.mp ha with ha | ha
      · exact Or.inl (hinv.failed a ha hf)
      · exact Or.inl (hmid a ha).2.1
    · rw [List.mem_singleton] at ha; subst ha
      exact Or.inr ⟨List.getLast?_concat _, _, rfl⟩

theorem StagesOK.fail {c : Chrome} {w : World} {n : Nat} {h : List Event} (e : Event)
    (pre d : String) (hinv : Inv n h) (hj : Jump n e.stage)
    (hk : e.stage.admits e.call = true) (hfail : e.call.succeeded = false)
    (hpre : pre = e.stage.label ++ ": ") :
    StagesOK c w (h ++ [e]) (some (some (pre ++ d))) := by
  have := @StagesOK.failCore c w n h [] e pre d hinv (by simp) (Or.inl rfl)
    hj hk hfail hpre
  simpa using this

/-- A failing download, after any metadata fetches, ends the run with the
driver stage's label. -/
theorem StagesOK.failDownload {c : Chrome} {w : World} {h fetches : List Event}
    (pre d ver dir err : String) (hinv : Inv 7 h)
    (hall : ∀ e ∈ fetches, e.stage = .downloadChromedriver ∧ e.call.isFetch = true
        ∧ e.call.isDownload = false)
    (hpre : pre = Stage.label .downloadChromedriver ++ ": ") :
    StagesOK c w (h ++ fetches ++ [downloadEvent ver dir (.error err)])
      (some (some (pre ++ d))) :=
  StagesOK.failCore _ pre d hinv hall (Or.inr ⟨rfl, rfl⟩) (Or.inl rfl) rfl rfl hpre

/-- Driver resolution failing before any download ends the run with the
driver stage's label: its last fetch failed, or the major version did not
parse and no fetch was made. -/
theorem StagesOK.failDriver {c : Chrome} {w : World} {h fetches : List Event}
    {path p : String} (pre d : String) (hinv : Inv 7 h)
    (hall : ∀ e ∈ fetches, e.stage = .downloadChromedriver ∧ e.call.isFetch = true
        ∧ e.call.isDownload = false)
    (hev : (∃ e, fetches.getLast? = some e ∧ e.call.succeeded = false)
      ∨ (fetches = [] ∧ c.DriverVersion = LatestVersion ∧ c.BrowserChannel = "dev"
          ∧ ∃ major err, majorVersion (w.extractVersion p) = some major
              ∧ Atoi major = .error err))
    (hprep : (⟨.browserSource, .Prepare (.ok (path, p))⟩ : Event) ∈ h)
    (hpre : pre = Stage.label .downloadChromedriver ++ ": ") :
    StagesOK c w (h ++ fetches) (some (some (pre ++ d))) := by
  subst hpre
  have hrank : ∀ a ∈ h ++ fetches, a.stage.rank ≤ Stage.rank .downloadChromedriver := by
    intro a ha
    rcases List.mem_append.mp ha with ha | ha
    · exact le_of_lt (hinv.bound a ha)
    · rw [(hall a ha).1]
  have hlow : ∀ s : Stage, s ≠ .movePackage → s.rank < Stage.rank .downloadChromedriver →
      ∃ e1 ∈ h ++ fetches, e1.stage = s ∧ e1.call.succeeded = true
        ∧ (s = .downloadChromedriver → e1.call.isDownload = true) := by
    intro s hs hlt
    obtain ⟨e1, he1, h1⟩ := hinv.complete s hs hlt
    exact ⟨e1, List.mem_append_left _ he1, h1⟩
  refine ⟨by simp, hinv.ordered_fetches hall (Or.inr rfl), ?_, ?_, ?_, ?_, ?_⟩
  · intro a ha
    rcases List.mem_append.mp ha with ha | ha
    · exact hinv.kinds a ha
    · exact Stage.admits_fetch (hall a ha).1 (hall a ha).2.1
  · intro msg hmsg
    simp only [Option.some.injEq] at hmsg
    subst hmsg
    refine ⟨.downloadChromedriver, d, rfl, hrank, ?_, ?_⟩
    · intro s hs hlt
      obtain ⟨e1, he1, h1, h2, _⟩ := hlow s hs hlt
      exact ⟨e1, he1, h1, h2⟩
    · rcases hev with ⟨e, hlast, hfail⟩ | ⟨hnil, hlatest, hdev, major, err, hmaj, hatoi⟩
      · refine Or.inl ⟨e, ?_, (hall e (List.mem_of_getLast?_eq_some hlast)).1, hfail⟩
        rw [List.getLast?_append, hlast]
        rfl
      · subst hnil
        refine Or.inr ⟨rfl, hlatest, hdev, ?_, path, p, major, err, by simpa using hprep,
          hmaj, hatoi⟩
        intro a ha hst
        have ha2 : a ∈ h := by simpa using ha
        have := hinv.bound a ha2
        rw [hst] at this
        exact absurd this (by decide)
  · constructor
    · intro hr; simp at hr
    · rintro ⟨a, ha, hs, hok⟩
      exfalso
      rcases List.mem_append.mp ha with ha | ha
      · exact hinv.no_push (by decide) ⟨a, ha, hs, hok⟩
      · rw [(hall a ha).1] at hs
        exact absurd hs (by decide)
  · intro a ha s hs hlt
    exact hlow s hs (lt_of_lt_of_le hlt (hrank a ha))
  · intro a ha hf
    rcases List.mem_append.mp ha with ha | ha
    · exact Or.inl (hinv.failed a ha hf)
    · exact Or.inl (hall a ha).2.1

/-- A run whose every stage is complete returns `nil`. -/
theorem StagesOK.success {c : Chrome} {w : World} {h : List Event} (hinv : Inv 11 h) :
    StagesOK c w h (some none) := by
  refine ⟨by simp, hinv.ordered, hinv.kinds, ?_, ?_, hinv.earlier, ?_⟩
  · intro msg hmsg; simp at hmsg
  · constructor
    · intro _
      obtain ⟨e, he, hs, hok, _⟩ := hinv.complete .pushImage (by decide) (by decide)
      exact ⟨e, he, hs, hok⟩
    · intro _; rfl
  · intro a ha hf
    exact Or.inl (hinv.failed a ha hf)

set_option maxHeartbeats 1000000 in
theorem stages_sat (c : Chrome) (w : World) :
    (c.Build w).sat [] (fun trace r => StagesOK c w trace r) := by
  unfold Chrome.Build
  repeat' first
    | (with_reducible_and_instances apply M.sat_call_bind; intro _)
    | with_reducible_and_instances apply M.sat_pure_bind
    | (with_reducible_and_instances apply M.sat_pure; dsimp only
       repeat' first
         | exact Inv.nil
         | apply StagesOK.success
         | apply StagesOK.failDownload
         | apply StagesOK.fail
         | apply StagesOK.failDriver
         | apply Inv.stepDownload
         | apply Inv.step
         | assumption
         | rfl
         | decide
         | exact List.mem_append_right _ (List.mem_singleton.mpr rfl)
         | apply List.mem_append_left
         | (dsimp only [downloadEvent]; decide)
         | (dsimp only [downloadEvent]; intro hs; exact absurd hs (by decide)))
    | (with_reducible_and_instances apply M.sat_bind
       refine M.sat_conseq _ _ _ _ (downloadChromeDriver_outcome c w _ _ _) ?_
       rintro h1 r ⟨fetches, hall, ⟨msg, rfl, rfl, hev⟩ | ⟨ver, err, rfl, rfl⟩
         | ⟨ver, path, rfl, rfl⟩⟩
       all_goals refine ⟨fun hn => by simp at hn, ?_⟩
       all_goals intro a ha
       all_goals cases ha)
    | split
    | dsimp only

/-! ## Runs of `Chrome.Build` -/

theorem not_mem_fetches (fetches : List Event)
    (hall : ∀ e ∈ fetches, e.stage = .downloadChromedriver ∧ e.call.isFetch = true
        ∧ e.call.isDownload = false) (s : Stage) (cl : Call)
    (hs : s ≠ .downloadChromedriver ∨ cl.isFetch = false) : (⟨s, cl⟩ : Event) ∉ fetches := by
  intro hmem
  obtain ⟨h1, h2, _⟩ := hall _ hmem
  rcases hs with hs | hs
  · exact hs h1
  · simp at h2; simp [h2] at hs

set_option maxHeartbeats 1000000 in
theorem dev_image_sat (c : Chrome) (w : World) :
    (c.Build w).sat [] (fun trace _ =>
      ∀ path p, ⟨.browserSource, .Prepare (.ok (path, p))⟩ ∈ trace →
        ∀ img err, ⟨.buildDevImage, .Build img err⟩ ∈ trace →
          img.BuildArgs = ("VERSION=" ++ p) :: c.channelToBuildArgs
          ∧ ∃ srcDir dir img0,
              ⟨.initDevImage, .NewImage srcDir dir
                { BrowserChannel := "", DriverVersion := "", NoCache := c.NoCache, TestsDir := "",
                  Tags := ["selenoid/dev_chrome:" ++ w.extractVersion p] } (.ok img0)⟩ ∈ trace
              ∧ img.Dir = img0.Dir ∧ img.Labels = img0.Labels) := by
  unfold Chrome.Build
  repeat' first
    | (with_reducible_and_instances apply M.sat_call_bind; intro _)
    | with_reducible_and_instances apply M.sat_pure_bind
    | (with_reducible_and_instances apply M.sat_pure; dsimp only
       intro path p hp img err hb
       first
       | (simp [downloadEvent, *] at hb; done)
       | (simp [downloadEvent, *] at hp
          obtain ⟨rfl, rfl⟩ := hp
          simp [downloadEvent, *] at hb
          obtain ⟨rfl, rfl⟩ := hb
          refine ⟨rfl, ?_⟩
          apply Exists.intro
          apply Exists.intro
          apply Exists.intro
          refine ⟨?hm, ?_, ?_⟩
          case hm =>
            repeat' first
              | exact List.mem_append_right _ (List.mem_singleton.mpr rfl)
              | apply List.mem_append_left
          all_goals rfl))
    | (with_reducible_and_instances apply M.sat_bind
       refine M.sat_conseq _ _ _ _ (downloadChromeDriver_shape c w _ _ _) ?_
       rintro h1 r ⟨fetches, hall, ⟨msg, rfl, rfl⟩ | ⟨ver, err, rfl, rfl⟩ | ⟨ver, path, rfl, rfl⟩⟩
       all_goals have hnm1 := fun cl => not_mem_fetches fetches hall .browserSource cl (Or.inl (by decide))
       all_goals have hnm2 := fun cl => not_mem_fetches fetches hall .buildDevImage cl (Or.inl (by decide))
       all_goals clear hall
       all_goals refine ⟨fun hn => by simp at hn, ?_⟩
       all_goals intro a ha
       all_goals cases ha)
    | split
    | dsimp only

set_option maxHeartbeats 1000000 in
theorem prepare_error_sat (c : Chrome) (w : World) :
    (c.Build w).sat [] (fun trace r =>
      ∀ e, ⟨.browserSource, .Prepare (.error e)⟩ ∈ trace →
        r = some (some ("invalid browser source: " ++ e))
        ∧ ∃ d, trace = [⟨.createDevTmpDir, .tmpDir (.ok d)⟩, ⟨.browserSource, .Prepare (.error e)⟩]) := by
  unfold Chrome.Build
  repeat' first
    | (with_reducible_and_instances apply M.sat_call_bind; intro _)
    | with_reducible_and_instances apply M.sat_pure_bind
    | (with_reducible_and_instances apply M.sat_pure; dsimp only
       simp [downloadEvent, *])
    | (with_reducible_and_instances apply M.sat_bind
       refine M.sat_conseq _ _ _ _ (downloadChromeDriver_shape c w _ _ _) ?_
       rintro h1 r ⟨fetches, hall, ⟨msg, rfl, rfl⟩ | ⟨ver, err, rfl, rfl⟩ | ⟨ver, path, rfl, rfl⟩⟩
       all_goals have hnm := fun cl => not_mem_fetches fetches hall .browserSource cl (Or.inl (by decide))
       all_goals clear hall
       all_goals refine ⟨fun hn => by simp at hn, ?_⟩
       all_goals intro a ha
       all_goals cases ha)
    | split
    | dsimp only

set_option maxHeartbeats 1000000 in
theorem final_image_sat (c : Chrome) (w : World) :
    (c.Build w).sat [] (fun trace _ =>
      ∀ img err, ⟨.buildImage, .Build img err⟩ ∈ trace →
        ∃ path p dir img0 ver dlpath,
          ⟨.browserSource, .Prepare (.ok (path, p))⟩ ∈ trace
          ∧ ⟨.initImage, .NewImage "chrome" dir c.toRequirements (.ok img0)⟩ ∈ trace
          ∧ downloadEvent ver img0.Dir (.ok dlpath) ∈ trace
          ∧ img = { Dir := img0.Dir,
                    BuildArgs := img0.BuildArgs ++ ["VERSION=" ++ w.extractVersion p],
                    Labels := ["driver=chromedriver:" ++ ver],
                    FileServer := img0.FileServer }) := by
  unfold Chrome.Build
  repeat' first
    | (with_reducible_and_instances apply M.sat_call_bind; intro _)
    | with_reducible_and_instances apply M.sat_pure_bind
    | (with_reducible_and_instances apply M.sat_pure; dsimp only
       intro img err hb
       first
       | (simp [downloadEvent, *] at hb; done)
       | (simp [downloadEvent, *] at hb
          obtain ⟨rfl, rfl⟩ := hb
          iterate 6 apply Exists.intro
          refine ⟨?m1, ?m2, ?m3, ?_⟩
          case m1 =>
            repeat' first
              | exact List.mem_append_right _ (List.mem_singleton.mpr rfl)
              | apply List.mem_append_left
          case m2 =>
            repeat' first
              | exact List.mem_append_right _ (List.mem_singleton.mpr rfl)
              | apply List.mem_append_left
          case m3 =>
            repeat' first
              | exact List.mem_append_right _ (List.mem_singleton.mpr rfl)
              | apply List.mem_append_left
          all_goals rfl))
    | (with_reducible_and_instances apply M.sat_bind
       refine M.sat_conseq _ _ _ _ (downloadChromeDriver_shape c w _ _ _) ?_
       rintro h1 r ⟨fetches, hall, ⟨msg, rfl, rfl⟩ | ⟨ver, err, rfl, rfl⟩ | ⟨ver, path, rfl, rfl⟩⟩
       all_goals have hnm1 := fun cl => not_mem_fetches fetches hall .buildImage cl (Or.inl (by decide))
       all_goals clear hall
       all_goals refine ⟨fun hn => by simp at hn, ?_⟩
       all_goals intro a ha
       all_goals cases ha)
    | split
    | dsimp only

theorem downloadChromeDriver_explicit (c : Chrome) (w : World) (dir v : String)
    (h : List Event) (hv : c.DriverVersion ≠ LatestVersion) :
    (c.downloadChromeDriver w dir v).sat h (fun h1 r =>
      (∃ err, h1 = h ++ [downloadEvent c.DriverVersion dir (.error err)]
          ∧ r = some (.error ("download Chromedriver: " ++ err)))
      ∨ (∃ path, h1 = h ++ [downloadEvent c.DriverVersion dir (.ok path)]
          ∧ r = some (.ok c.DriverVersion))) := by
  constructor
  unfold Chrome.downloadChromeDriver
  simp only [if_neg hv, downloadVersion_run]
  cases w.downloadDriver h
      ("http://chromedriver.storage.googleapis.com/" ++ c.DriverVersion ++ "/chromedriver_linux64.zip")
      chromeDriverBinary dir with
  | error err => exact Or.inl ⟨err, rfl, rfl⟩
  | ok path => exact Or.inr ⟨path, rfl, rfl⟩

set_option maxHeartbeats 1000000 in
theorem explicit_sat (c : Chrome) (w : World) (hv : c.DriverVersion ≠ LatestVersion) :
    (c.Build w).sat [] (fun trace _ =>
      (∀ e ∈ trace, e.call.isFetch = false)
      ∧ (∀ url bin dir res, ⟨.downloadChromedriver, .downloadDriver url bin dir res⟩ ∈ trace →
          url = "http://chromedriver.storage.googleapis.com/" ++ c.DriverVersion
                  ++ "/chromedriver_linux64.zip")
      ∧ (∀ img err, ⟨.buildImage, .Build img err⟩ ∈ trace →
          img.Labels = ["driver=chromedriver:" ++ c.DriverVersion])) := by
  unfold Chrome.Build
  repeat' first
    | (with_reducible_and_instances apply M.sat_call_bind; intro _)
    | with_reducible_and_instances apply M.sat_pure_bind
    | (with_reducible_and_instances apply M.sat_pure; dsimp only
       refine ⟨?_, ?_, ?_⟩
       · simp [downloadEvent, Call.isFetch]
       · intro url bin dir res hm
         first
         | (simp [downloadEvent] at hm; done)
         | (simp [downloadEvent] at hm; exact hm.1)
       · intro img err hm
         first
         | (simp [downloadEvent] at hm; done)
         | (simp [downloadEvent] at hm; rw [hm.1]))
    | (with_reducible_and_instances apply M.sat_bind
       refine M.sat_conseq _ _ _ _ (downloadChromeDriver_explicit c w _ _ _ hv) ?_
       rintro h1 r (⟨err, rfl, rfl⟩ | ⟨path, rfl, rfl⟩)
       all_goals refine ⟨fun hn => by simp at hn, ?_⟩
       all_goals intro a ha
       all_goals cases ha)
    | split
    | dsimp only

theorem downloadChromeDriver_latest (c : Chrome) (w : World) (dir v : String)
    (h : List Event) (hv : c.DriverVersion = LatestVersion) (hch : c.BrowserChannel ≠ "dev") :
    (c.downloadChromeDriver w dir v).sat h (fun h1 r =>
      ∃ res : Except String HttpResponse,
        (∃ msg, fetchOutcome res = .error msg
          ∧ h1 = h ++ [fetchEvent ("https://chromedriver.storage.googleapis.com/"
                  ++ ("LATEST_RELEASE_" ++ truncate v 3)) res]
          ∧ r = some (.error ("latest chromedriver version: " ++ msg)))
        ∨ (∃ ver err, fetchOutcome res = .ok ver
          ∧ h1 = h ++ [fetchEvent ("https://chromedriver.storage.googleapis.com/"
                  ++ ("LATEST_RELEASE_" ++ truncate v 3)) res]
                ++ [downloadEvent ver dir (.error err)]
          ∧ r = some (.error ("download Chromedriver: " ++ err)))
        ∨ (∃ ver path, fetchOutcome res = .ok ver
          ∧ h1 = h ++ [fetchEvent ("https://chromedriver.storage.googleapis.com/"
                  ++ ("LATEST_RELEASE_" ++ truncate v 3)) res]
                ++ [downloadEvent ver dir (.ok path)]
          ∧ r = some (.ok ver))) := by
  constructor
  unfold Chrome.downloadChromeDriver Chrome.getLatestChromeDriver
  simp only [if_pos hv, if_neg hch, M.run_bind, M.run_ofOption, buildVersion_eq,
    fetchVersion_run]
  refine ⟨w.httpGet h ("https://chromedriver.storage.googleapis.com/"
    ++ ("LATEST_RELEASE_" ++ truncate v 3)), ?_⟩
  cases hres : fetchOutcome (w.httpGet h ("https://chromedriver.storage.googleapis.com/"
    ++ ("LATEST_RELEASE_" ++ truncate v 3))) with
  | error msg => exact Or.inl ⟨msg, rfl, rfl, rfl⟩
  | ok ver =>
    refine Or.inr ?_
    simp only [downloadVersion_run]
    cases w.downloadDriver (h ++ [fetchEvent ("https://chromedriver.storage.googleapis.com/"
        ++ ("LATEST_RELEASE_" ++ truncate v 3)) (w.httpGet h
          ("https://chromedriver.storage.googleapis.com/" ++ ("LATEST_RELEASE_" ++ truncate v 3)))])
      ("http://chromedriver.storage.googleapis.com/" ++ ver ++ "/chromedriver_linux64.zip")
      chromeDriverBinary dir with
    | error err => exact Or.inl ⟨ver, err, rfl, rfl, rfl⟩
    | ok path => exact Or.inr ⟨ver, path, rfl, rfl, rfl⟩

set_option maxHeartbeats 1000000 in
theorem latest_sat (c : Chrome) (w : World) (hv : c.DriverVersion = LatestVersion)
    (hch : c.BrowserChannel ≠ "dev") :
    (c.Build w).sat [] (fun trace r =>
      (∀ dir img0, ⟨.initImage, .NewImage "chrome" dir c.toRequirements (.ok img0)⟩ ∈ trace →
        ∃ path p bv res,
          ⟨.browserSource, .Prepare (.ok (path, p))⟩ ∈ trace
          ∧ buildVersion (w.extractVersion p) = some bv
          ∧ fetchEvent ("https://chromedriver.storage.googleapis.com/"
              ++ ("LATEST_RELEASE_" ++ bv)) res ∈ trace
          ∧ trace.filter (fun e => e.call.isFetch)
              = [fetchEvent ("https://chromedriver.storage.googleapis.com/"
                  ++ ("LATEST_RELEASE_" ++ bv)) res]
          ∧ (∀ msg, fetchOutcome res = .error msg →
              trace.getLast? = some (fetchEvent ("https://chromedriver.storage.googleapis.com/"
                  ++ ("LATEST_RELEASE_" ++ bv)) res)
              ∧ r = some (some ("failed to download Chromedriver: "
                    ++ ("latest chromedriver version: " ++ msg))))
          ∧ (∀ ver, fetchOutcome res = .ok ver →
              ∃ dres, downloadEvent ver img0.Dir dres ∈ trace))
      ∧ ((∀ dir img0,
            ⟨.initImage, .NewImage "chrome" dir c.toRequirements (.ok img0)⟩ ∉ trace) →
          ∀ e ∈ trace, e.call.isFetch = false)) := by
  unfold Chrome.Build
  repeat' first
    | (with_reducible_and_instances apply M.sat_call_bind; intro _)
    | with_reducible_and_instances apply M.sat_pure_bind
    | (with_reducible_and_instances apply M.sat_pure; dsimp only
       refine ⟨?_, ?_⟩
       · intro dir img0 hm
         first
         | (simp [downloadEvent, fetchEvent] at hm; done)
         | (simp [downloadEvent, fetchEvent] at hm
            obtain ⟨rfl, rfl⟩ := hm
            iterate 4 apply Exists.intro
            refine ⟨?m1, buildVersion_eq _, ?m3, ?fl, ?hf, ?ho⟩
            case m1 =>
              repeat' first
                | exact List.mem_append_right _ (List.mem_singleton.mpr rfl)
                | apply List.mem_append_left
            case m3 =>
              repeat' first
                | exact List.mem_append_right _ (List.mem_singleton.mpr rfl)
                | apply List.mem_append_left
            case fl => simp [downloadEvent, fetchEvent, Call.isFetch]
            case hf =>
              intro msg hm
              simp [hres] at hm <;> (subst hm; exact ⟨by simp, rfl⟩)
            case ho =>
              intro ver1 hm
              simp [hres] at hm <;>
                (subst hm
                 apply Exists.intro
                 repeat' first
                   | exact List.mem_append_right _ (List.mem_singleton.mpr rfl)
                   | apply List.mem_append_left))
       · intro hno
         first
         | (simp [downloadEvent, fetchEvent, Call.isFetch]; done)
         | (exfalso
            apply hno
            repeat' first
              | exact List.mem_append_right _ (List.mem_singleton.mpr rfl)
              | apply List.mem_append_left))
    | (with_reducible_and_instances apply M.sat_bind
       refine M.sat_conseq _ _ _ _ (downloadChromeDriver_latest c w _ _ _ hv hch) ?_
       rintro h1 r ⟨res, ⟨msg, hres, rfl, rfl⟩ | ⟨ver, err, hres, rfl, rfl⟩
         | ⟨ver, path, hres, rfl, rfl⟩⟩
       all_goals refine ⟨fun hn => by simp at hn, ?_⟩
       all_goals intro a ha
       all_goals cases ha)
    | split
    | dsimp only

/-- Two calls of one stage other than driver resolution cannot both be in an
ordered trace unless they are the same call. -/
theorem StageRel.unique {trace : List Event} (hord : trace.Pairwise StageRel)
    {a b : Event} (ha : a ∈ trace) (hb : b ∈ trace) (hs : a.stage = b.stage)
    (hnd : a.stage ≠ .downloadChromedriver) : a = b := by
  have hsym : trace.Pairwise (fun x y => x = y ∨ StageRel x y ∨ StageRel y x) :=
    hord.imp (fun h => Or.inr (Or.inl h))
  have hflip : Symmetric (fun x y : Event => x = y ∨ StageRel x y ∨ StageRel y x) := by
    intro x y hxy
    rcases hxy with h | h | h
    · exact Or.inl h.symm
    · exact Or.inr (Or.inr h)
    · exact Or.inr (Or.inl h)
  have hall := List.Pairwise.forall_of_forall hflip (fun x _ => Or.inl rfl) hsym ha hb
  rcases hall with h | h | h
  · exact h
  · rcases h with h | ⟨h, _⟩
    · rw [hs] at h; exact absurd h (lt_irrefl _)
    · exact absurd h hnd
  · rcases h with h | ⟨_, h⟩
    · rw [hs] at h; exact absurd h (lt_irrefl _)
    · exact absurd h hnd

/-! ## The claims -/

/-- C1 (as stated, refuted): in the run of `brokenSourceWorld`, `Prepare()`
returns an error and yet `tmpDir` has been called, because `Build` creates the
dev temporary directory before it prepares the browser source. -/
theorem prepare_error_after_tmpDir :
    (⟨.browserSource, .Prepare (.error "source unavailable")⟩ : Event)
        ∈ ((demoChrome "" "latest").run brokenSourceWorld).1
    ∧ (⟨.createDevTmpDir, .tmpDir (.ok "/tmp/dev")⟩ : Event)
        ∈ ((demoChrome "" "latest").run brokenSourceWorld).1
    ∧ ¬ ∀ e ∈ ((demoChrome "" "latest").run brokenSourceWorld).1, e.call.isTmpDir = false := by
  decide

/-- C1 (amended): when `Prepare()` returns an error `e`, `Build` returns the
error "invalid browser source: e"; the run consists of exactly two calls, one
successful `tmpDir` made before `Prepare` and `Prepare` itself, so no image is
constructed and no fetch or download is made. -/
theorem Build_prepare_error (c : Chrome) (w : World) (e : String)
    (h : (⟨.browserSource, .Prepare (.error e)⟩ : Event) ∈ (c.run w).1) :
    (c.run w).2 = some (some ("invalid browser source: " ++ e))
    ∧ (∃ d, (c.run w).1
        = [⟨.createDevTmpDir, .tmpDir (.ok d)⟩, ⟨.browserSource, .Prepare (.error e)⟩])
    ∧ (∀ ev ∈ (c.run w).1, ev.call.isNewImage = false ∧ ev.call.isFetch = false
        ∧ ev.call.isDownload = false) := by
  obtain ⟨hr, d, hd⟩ := (prepare_error_sat c w).holds e h
  refine ⟨hr, ⟨d, hd⟩, ?_⟩
  have hd2 : (c.run w).1
      = [⟨.createDevTmpDir, .tmpDir (.ok d)⟩, ⟨.browserSource, .Prepare (.error e)⟩] := hd
  rw [hd2]
  intro ev hev
  simp only [List.mem_cons, List.mem_singleton, List.not_mem_nil, or_false] at hev
  rcases hev with rfl | rfl <;> exact ⟨rfl, rfl, rfl⟩

/-- C1 witness: the run of `brokenSourceWorld`. -/
theorem Build_prepare_error_witness :
    (⟨.browserSource, .Prepare (.error "source unavailable")⟩ : Event)
        ∈ ((demoChrome "" "latest").run brokenSourceWorld).1
    ∧ (((demoChrome "" "latest").run brokenSourceWorld).2
          = some (some ("invalid browser source: " ++ "source unavailable"))
      ∧ (∃ d, ((demoChrome "" "latest").run brokenSourceWorld).1
          = [⟨.createDevTmpDir, .tmpDir (.ok d)⟩,
             ⟨.browserSource, .Prepare (.error "source unavailable")⟩])
      ∧ (∀ ev ∈ ((demoChrome "" "latest").run brokenSourceWorld).1,
          ev.call.isNewImage = false ∧ ev.call.isFetch = false
            ∧ ev.call.isDownload = false)) :=
  ⟨by decide, Build_prepare_error (demoChrome "" "latest") brokenSourceWorld
    "source unavailable" (by decide)⟩

/-- C2: for every version string `v` and every `n ≥ 0`, `versionN(v, n)` is
the specification's `truncate`: the first `n` dot-separated segments of `v`
rejoined with "." when `v` has at least `n` segments, and `v` itself
otherwise; for "116.0.5845.96" the three specialisations and `n = 9` give
"116", "116.0", "116.0.5845" and "116.0.5845.96". -/
theorem versionN_eq_truncate :
    (∀ (v : String) (n : Nat), versionN v (n : Int) = some (truncate v n))
    ∧ (∀ (v : String) (n : Nat), n ≤ (Split v '.').length →
        versionN v (n : Int) = some (Join ((Split v '.').take n) "."))
    ∧ (∀ (v : String) (n : Nat), (Split v '.').length < n → versionN v (n : Int) = some v)
    ∧ majorVersion "116.0.5845.96" = some "116"
    ∧ majorMinorVersion "116.0.5845.96" = some "116.0"
    ∧ buildVersion "116.0.5845.96" = some "116.0.5845"
    ∧ versionN "116.0.5845.96" 9 = some "116.0.5845.96" := by
  have h1 : ∀ (v : String) (n : Nat), versionN v (n : Int) = some (truncate v n) := by
    intro v n
    have := versionN_of_nonneg v (n : Int) (Int.natCast_nonneg n)
    simpa using this
  refine ⟨h1, ?_, ?_, by decide, by decide, by decide, by decide⟩
  · intro v n hn
    rw [h1]
    simp [truncate, hn]
  · intro v n hn
    rw [h1]
    have : ¬ n ≤ (Split v '.').length := by omega
    simp [truncate, this]

/-- C3 (as stated, refuted): with a negative `n` the guard
`len(pieces) >= n` holds and the slice `pieces[0:n]` is out of bounds, so
`versionN` panics. -/
theorem versionN_negative_panics :
    versionN "116.0.5845.96" (-1) = none ∧ versionN "" (-1) = none := by
  decide

/-- C3 (amended): `versionN` returns a string, without panicking, for every
version string (the empty one included) exactly when `n ≥ 0` (zero
included); for negative `n` it panics. -/
theorem versionN_returns_iff (v : String) (n : Int) :
    (∃ s, versionN v n = some s) ↔ 0 ≤ n := by
  constructor
  · rintro ⟨s, hs⟩
    by_contra hn
    rw [versionN_of_neg v n (by omega)] at hs
    exact absurd hs (by simp)
  · intro hn
    exact ⟨_, versionN_of_nonneg v n hn⟩

/-- C10: truncations compose. For every version string `v` and all
`m, n ≥ 1`, `versionN(versionN(v, m), n) = versionN(v, min(m, n))`; hence
`versionN(·, n)` is idempotent, `majorVersion(buildVersion(v)) =
majorVersion(v)` and `buildVersion(majorVersion(v)) = majorVersion(v)`. -/
theorem versionN_compose (v : String) (m n : Int) (hm : 1 ≤ m) (hn : 1 ≤ n) :
    (versionN v m).bind (fun u => versionN u n) = versionN v (min m n)
    ∧ (versionN v n).bind (fun u => versionN u n) = versionN v n
    ∧ (buildVersion v).bind majorVersion = majorVersion v
    ∧ (majorVersion v).bind buildVersion = majorVersion v := by
  have key : ∀ (a b : Int), 1 ≤ a → 1 ≤ b →
      (versionN v a).bind (fun u => versionN u b) = versionN v (min a b) := by
    intro a b ha hb
    rw [versionN_of_nonneg v a (by omega), Option.some_bind,
      versionN_of_nonneg _ b (by omega), versionN_of_nonneg v (min a b) (by omega),
      truncate_truncate v a.toNat b.toNat (by omega)]
    congr 2
    omega
  refine ⟨key m n hm hn, ?_, ?_, ?_⟩
  · simpa using key n n hn hn
  · exact key 3 1 (by decide) (by decide)
  · exact key 1 3 (by decide) (by decide)

/-- C10 witness: "116.0.5845.96" truncated to 3 and then to 1 segment. -/
theorem versionN_compose_witness :
    (1 : Int) ≤ 3 ∧ (1 : Int) ≤ 1
    ∧ ((versionN "116.0.5845.96" 3).bind (fun u => versionN u 1)
          = versionN "116.0.5845.96" (min 3 1)
      ∧ (versionN "116.0.5845.96" 1).bind (fun u => versionN u 1)
          = versionN "116.0.5845.96" 1
      ∧ (buildVersion "116.0.5845.96").bind majorVersion = majorVersion "116.0.5845.96"
      ∧ (majorVersion "116.0.5845.96").bind buildVersion = majorVersion "116.0.5845.96") :=
  ⟨by decide, by decide,
    versionN_compose "116.0.5845.96" 3 1 (by decide) (by decide)⟩

/-- C4 (as stated, refuted): with driver version "latest" and the stable
channel, `Prepare()` returning "106.0.5249.61", the one fetch of the run of
`offlineWorld` goes to `LATEST_RELEASE_106`, built from the tag version that
`Build` hands to the resolver, not to `LATEST_RELEASE_106.0.5249`, the build
version of the package version; and in the run of `noDevImageWorld`, which
fails before driver resolution, no fetch is made at all. -/
theorem latest_fetch_uses_tag_version :
    (⟨.browserSource, .Prepare (.ok ("", "106.0.5249.61"))⟩ : Event)
        ∈ ((demoChrome "" "latest").run offlineWorld).1
    ∧ buildVersion "106.0.5249.61" = some "106.0.5249"
    ∧ ((demoChrome "" "latest").run offlineWorld).1.filter (fun e => e.call.isFetch)
        = [fetchEvent "https://chromedriver.storage.googleapis.com/LATEST_RELEASE_106"
            (.error "no network")]
    ∧ (⟨.browserSource, .Prepare (.ok ("", "106.0.5249.61"))⟩ : Event)
        ∈ ((demoChrome "" "latest").run noDevImageWorld).1
    ∧ ((demoChrome "" "latest").run noDevImageWorld).1.filter (fun e => e.call.isFetch) = [] := by
  decide

/-- C4 (amended): with driver version "latest" and a channel other than
"dev", a run that has constructed the final image, where `Prepare()` returned
package version `p`, makes exactly one metadata fetch; its URL is the base URL
followed by "LATEST_RELEASE_" and `buildVersion` of the tag version
`extractVersion(p)` that `Build` passes to the resolver; a failed fetch is the
last call of the run and its error is returned wrapped, with no fallback
fetch; a successful fetch's body is the version that is downloaded. A run
that does not get as far as the final image makes no fetch. -/
theorem Build_latest_fetch (c : Chrome) (w : World) (hv : c.DriverVersion = LatestVersion)
    (hch : c.BrowserChannel ≠ "dev") :
    (∀ dir img0,
      (⟨.initImage, .NewImage "chrome" dir c.toRequirements (.ok img0)⟩ : Event) ∈ (c.run w).1 →
        ∃ path p bv res,
          (⟨.browserSource, .Prepare (.ok (path, p))⟩ : Event) ∈ (c.run w).1
          ∧ buildVersion (w.extractVersion p) = some bv
          ∧ fetchEvent ("https://chromedriver.storage.googleapis.com/"
              ++ ("LATEST_RELEASE_" ++ bv)) res ∈ (c.run w).1
          ∧ (c.run w).1.filter (fun e => e.call.isFetch)
              = [fetchEvent ("https://chromedriver.storage.googleapis.com/"
                  ++ ("LATEST_RELEASE_" ++ bv)) res]
          ∧ (∀ msg, fetchOutcome res = .error msg →
              (c.run w).1.getLast? = some (fetchEvent ("https://chromedriver.storage.googleapis.com/"
                  ++ ("LATEST_RELEASE_" ++ bv)) res)
              ∧ (c.run w).2 = some (some ("failed to download Chromedriver: "
                    ++ ("latest chromedriver version: " ++ msg))))
          ∧ (∀ ver, fetchOutcome res = .ok ver →
              ∃ dres, downloadEvent ver img0.Dir dres ∈ (c.run w).1))
    ∧ ((∀ dir img0,
          (⟨.initImage, .NewImage "chrome" dir c.toRequirements (.ok img0)⟩ : Event)
            ∉ (c.run w).1) →
        ∀ e ∈ (c.run w).1, e.call.isFetch = false) :=
  (latest_sat c w hv hch).holds

/-- C4 witness: the run of `demoWorld` with driver version "latest" on the
stable channel. -/
theorem Build_latest_fetch_witness :
    (demoChrome "" "latest").DriverVersion = LatestVersion
    ∧ (demoChrome "" "latest").BrowserChannel ≠ "dev"
    ∧ ((∀ dir img0,
        (⟨.initImage, .NewImage "chrome" dir (demoChrome "" "latest").toRequirements
            (.ok img0)⟩ : Event) ∈ ((demoChrome "" "latest").run demoWorld).1 →
          ∃ path p bv res,
            (⟨.browserSource, .Prepare (.ok (path, p))⟩ : Event)
              ∈ ((demoChrome "" "latest").run demoWorld).1
            ∧ buildVersion (demoWorld.extractVersion p) = some bv
            ∧ fetchEvent ("https://chromedriver.storage.googleapis.com/"
                ++ ("LATEST_RELEASE_" ++ bv)) res ∈ ((demoChrome "" "latest").run demoWorld).1
            ∧ ((demoChrome "" "latest").run demoWorld).1.filter (fun e => e.call.isFetch)
                = [fetchEvent ("https://chromedriver.storage.googleapis.com/"
                    ++ ("LATEST_RELEASE_" ++ bv)) res]
            ∧ (∀ msg, fetchOutcome res = .error msg →
                ((demoChrome "" "latest").run demoWorld).1.getLast?
                  = some (fetchEvent ("https://chromedriver.storage.googleapis.com/"
                    ++ ("LATEST_RELEASE_" ++ bv)) res)
                ∧ ((demoChrome "" "latest").run demoWorld).2
                  = some (some ("failed to download Chromedriver: "
                      ++ ("latest chromedriver version: " ++ msg))))
            ∧ (∀ ver, fetchOutcome res = .ok ver →
                ∃ dres, downloadEvent ver img0.Dir dres
                  ∈ ((demoChrome "" "latest").run demoWorld).1))
      ∧ ((∀ dir img0,
            (⟨.initImage, .NewImage "chrome" dir (demoChrome "" "latest").toRequirements
                (.ok img0)⟩ : Event) ∉ ((demoChrome "" "latest").run demoWorld).1) →
          ∀ e ∈ ((demoChrome "" "latest").run demoWorld).1, e.call.isFetch = false)) :=
  ⟨by decide, by decide, Build_latest_fetch (demoChrome "" "latest") demoWorld
    (by decide) (by decide)⟩

/-- C5: on the dev channel, for a version string whose major segment parses
as the integer `cmv`, `getLatestChromeDriver` first makes fetches to the one
URL base + "LATEST_RELEASE_<cmv>", at most `cmv` of them (none when
`cmv ≤ 0`), all but possibly the last failing; it stops at the first that
succeeds and returns its body; only after `cmv` failures (`max(cmv, 0)` of
them) does it make exactly one more fetch, to base + "LATEST_RELEASE", and
returns that fetch's result or error. When no fetch succeeds, exactly
`max(cmv, 0) + 1` fetches are made. -/
theorem dev_channel_fetch_order (c : Chrome) (w : World) (baseUrl pkgVersion major : String)
    (cmv : Int) (h : List Event) (hch : c.BrowserChannel = "dev")
    (hmaj : majorVersion pkgVersion = some major) (hM : Atoi major = .ok cmv) :
    ∃ (failed : List Event) (res : Except String HttpResponse),
      (∀ e ∈ failed, ∃ r msg,
          e = fetchEvent (baseUrl ++ ("LATEST_RELEASE_" ++ formatInt cmv)) r
          ∧ fetchOutcome r = .error msg)
      ∧ ((failed.length < cmv.toNat ∧ (∃ body, fetchOutcome res = .ok body)
            ∧ c.getLatestChromeDriver w baseUrl pkgVersion h
              = (h ++ failed ++ [fetchEvent (baseUrl ++ ("LATEST_RELEASE_" ++ formatInt cmv)) res],
                 some (fetchOutcome res)))
        ∨ (failed.length = cmv.toNat
            ∧ c.getLatestChromeDriver w baseUrl pkgVersion h
              = (h ++ failed ++ [fetchEvent (baseUrl ++ "LATEST_RELEASE") res],
                 some (fetchOutcome res))))
      ∧ ((∀ body, (c.getLatestChromeDriver w baseUrl pkgVersion h).2 ≠ some (.ok body)) →
          ((failed.length + 1 : Nat) : Int) = max cmv 0 + 1) := by
  obtain ⟨failed, hall, hcase⟩ := fetchMajorLoop_run w baseUrl cmv cmv.toNat h
  have hrun0 := getLatestChromeDriver_dev_run c w baseUrl pkgVersion major cmv h hch hmaj hM
  rcases hcase with ⟨res, body, hlen, hok, hrun⟩ | ⟨hlen, hrun⟩
  · have hfinal : c.getLatestChromeDriver w baseUrl pkgVersion h
        = (h ++ failed ++ [fetchEvent (baseUrl ++ ("LATEST_RELEASE_" ++ formatInt cmv)) res],
           some (fetchOutcome res)) := by
      rw [hrun0, hrun, hok]
    refine ⟨failed, res, hall, Or.inl ⟨hlen, ⟨body, hok⟩, hfinal⟩, ?_⟩
    intro hne
    exact absurd (by rw [hfinal, hok]) (hne body)
  · have hfinal : c.getLatestChromeDriver w baseUrl pkgVersion h
        = (h ++ failed ++ [fetchEvent (baseUrl ++ "LATEST_RELEASE")
              (w.httpGet (h ++ failed) (baseUrl ++ "LATEST_RELEASE"))],
           some (fetchOutcome (w.httpGet (h ++ failed) (baseUrl ++ "LATEST_RELEASE")))) := by
      rw [hrun0, hrun]
      simp only [fetchVersion_run]
    refine ⟨failed, _, hall, Or.inr ⟨hlen, hfinal⟩, ?_⟩
    intro _
    rw [hlen]
    omega

/-- C5 witness: major version 3 on the dev channel, from an empty history in
`offlineWorld`. -/
theorem dev_channel_fetch_order_witness :
    (demoChrome "dev" "latest").BrowserChannel = "dev"
    ∧ majorVersion "3.0.1" = some "3"
    ∧ Atoi "3" = .ok 3
    ∧ ∃ (failed : List Event) (res : Except String HttpResponse),
      (∀ e ∈ failed, ∃ r msg,
          e = fetchEvent ("https://chromedriver.storage.googleapis.com/"
                ++ ("LATEST_RELEASE_" ++ formatInt 3)) r
          ∧ fetchOutcome r = .error msg)
      ∧ ((failed.length < (3 : Int).toNat ∧ (∃ body, fetchOutcome res = .ok body)
            ∧ (demoChrome "dev" "latest").getLatestChromeDriver offlineWorld
                "https://chromedriver.storage.googleapis.com/" "3.0.1" []
              = ([] ++ failed ++ [fetchEvent ("https://chromedriver.storage.googleapis.com/"
                    ++ ("LATEST_RELEASE_" ++ formatInt 3)) res],
                 some (fetchOutcome res)))
        ∨ (failed.length = (3 : Int).toNat
            ∧ (demoChrome "dev" "latest").getLatestChromeDriver offlineWorld
                "https://chromedriver.storage.googleapis.com/" "3.0.1" []
              = ([] ++ failed ++ [fetchEvent ("https://chromedriver.storage.googleapis.com/"
                    ++ "LATEST_RELEASE") res],
                 some (fetchOutcome res))))
      ∧ ((∀ body, ((demoChrome "dev" "latest").getLatestChromeDriver offlineWorld
              "https://chromedriver.storage.googleapis.com/" "3.0.1" []).2 ≠ some (.ok body)) →
          ((failed.length + 1 : Nat) : Int) = max 3 0 + 1) :=
  ⟨by decide, by decide, by decide,
    dev_channel_fetch_order (demoChrome "dev" "latest") offlineWorld
      "https://chromedriver.storage.googleapis.com/" "3.0.1" "3" 3 []
      (by decide) (by decide) (by decide)⟩

/-- C6: with a configured driver version other than "latest", on any channel,
`downloadChromeDriver` makes the one call `downloadDriver` with the configured
version in the URL and returns that version when the download succeeds; a run
of `Build` makes no metadata fetch, every download it makes has the configured
version in its URL, and the final image is built with the label
"driver=chromedriver:" followed by the configured version. -/
theorem explicit_driver_version (c : Chrome) (w : World) (hv : c.DriverVersion ≠ LatestVersion) :
    (∀ dir v h, ∃ res,
        (c.downloadChromeDriver w dir v h).1 = h ++ [downloadEvent c.DriverVersion dir res]
        ∧ (∀ path, res = .ok path →
            (c.downloadChromeDriver w dir v h).2 = some (.ok c.DriverVersion))
        ∧ (∀ err, res = .error err →
            (c.downloadChromeDriver w dir v h).2
              = some (.error ("download Chromedriver: " ++ err))))
    ∧ (∀ e ∈ (c.run w).1, e.call.isFetch = false)
    ∧ (∀ url bin dir res,
        (⟨.downloadChromedriver, .downloadDriver url bin dir res⟩ : Event) ∈ (c.run w).1 →
          url = "http://chromedriver.storage.googleapis.com/" ++ c.DriverVersion
                  ++ "/chromedriver_linux64.zip")
    ∧ (∀ img err, (⟨.buildImage, .Build img err⟩ : Event) ∈ (c.run w).1 →
          img.Labels = ["driver=chromedriver:" ++ c.DriverVersion]) := by
  refine ⟨?_, (explicit_sat c w hv).holds⟩
  intro dir v h
  rcases (downloadChromeDriver_explicit c w dir v h hv).holds with
    ⟨err, h1, h2⟩ | ⟨path, h1, h2⟩
  · refine ⟨.error err, h1, ?_, ?_⟩
    · intro path hp
      cases hp
    · intro err1 he
      cases he
      exact h2
  · refine ⟨.ok path, h1, ?_, ?_⟩
    · intro _ _
      exact h2
    · intro err1 he
      cases he

/-- C6 witness: the run of `offlineWorld` with the explicit driver version
"106.0.5249.61" on the beta channel. -/
theorem explicit_driver_version_witness :
    (demoChrome "beta" "106.0.5249.61").DriverVersion ≠ LatestVersion
    ∧ ((∀ dir v h, ∃ res,
          ((demoChrome "beta" "106.0.5249.61").downloadChromeDriver offlineWorld dir v h).1
            = h ++ [downloadEvent (demoChrome "beta" "106.0.5249.61").DriverVersion dir res]
          ∧ (∀ path, res = .ok path →
              ((demoChrome "beta" "106.0.5249.61").downloadChromeDriver offlineWorld dir v h).2
                = some (.ok (demoChrome "beta" "106.0.5249.61").DriverVersion))
          ∧ (∀ err, res = .error err →
              ((demoChrome "beta" "106.0.5249.61").downloadChromeDriver offlineWorld dir v h).2
                = some (.error ("download Chromedriver: " ++ err))))
      ∧ (∀ e ∈ ((demoChrome "beta" "106.0.5249.61").run offlineWorld).1, e.call.isFetch = false)
      ∧ (∀ url bin dir res,
          (⟨.downloadChromedriver, .downloadDriver url bin dir res⟩ : Event)
            ∈ ((demoChrome "beta" "106.0.5249.61").run offlineWorld).1 →
            url = "http://chromedriver.storage.googleapis.com/"
                    ++ (demoChrome "beta" "106.0.5249.61").DriverVersion
                    ++ "/chromedriver_linux64.zip")
      ∧ (∀ img err, (⟨.buildImage, .Build img err⟩ : Event)
            ∈ ((demoChrome "beta" "106.0.5249.61").run offlineWorld).1 →
            img.Labels
              = ["driver=chromedriver:" ++ (demoChrome "beta" "106.0.5249.61").DriverVersion])) :=
  ⟨by decide, explicit_driver_version (demoChrome "beta" "106.0.5249.61") offlineWorld
    (by decide)⟩

/-- C8: for every raw package version `p` returned by `Prepare()` and every
channel value, the dev image that `Build` builds is the image `NewImage` made
from the requirements with the caller's cache flag and the single tag
"selenoid/dev_chrome:" followed by `extractVersion(p)`, with its build
arguments set to "VERSION=" followed by `p` and then the channel arguments:
the beta pair for "beta", the unstable pair for "dev", nothing for any other
channel; for `p` = "106.0.5249.61" on the empty channel the list is
`[VERSION=106.0.5249.61]`. -/
theorem Build_dev_image (c : Chrome) (w : World) :
    (∀ path p, (⟨.browserSource, .Prepare (.ok (path, p))⟩ : Event) ∈ (c.run w).1 →
      ∀ img err, (⟨.buildDevImage, .Build img err⟩ : Event) ∈ (c.run w).1 →
        img.BuildArgs = ("VERSION=" ++ p) ::
            (if c.BrowserChannel = "beta" then
              ["PACKAGE=google-chrome-beta", "INSTALL_DIR=chrome-beta"]
            else if c.BrowserChannel = "dev" then
              ["PACKAGE=google-chrome-unstable", "INSTALL_DIR=chrome-unstable"]
            else [])
        ∧ ∃ srcDir dir img0,
            (⟨.initDevImage, .NewImage srcDir dir
              { BrowserChannel := "", DriverVersion := "", NoCache := c.NoCache, TestsDir := "",
                Tags := ["selenoid/dev_chrome:" ++ w.extractVersion p] } (.ok img0)⟩ : Event)
              ∈ (c.run w).1
            ∧ img.Dir = img0.Dir ∧ img.Labels = img0.Labels)
    ∧ (⟨.buildDevImage, .Build ⟨"/tmp/dev", ["VERSION=106.0.5249.61"], [], false⟩ none⟩ : Event)
        ∈ ((demoChrome "" "latest").run demoWorld).1
    ∧ (⟨.initDevImage, .NewImage "chrome/apt" "/tmp/dev"
          { BrowserChannel := "", DriverVersion := "", NoCache := true, TestsDir := "",
            Tags := ["selenoid/dev_chrome:106"] } (.ok ⟨"/tmp/dev", [], [], false⟩)⟩ : Event)
        ∈ ((demoChrome "" "latest").run demoWorld).1 :=
  ⟨(dev_image_sat c w).holds, by decide, by decide⟩

/-- C9 (as stated, refuted): in the run of `labelledWorld` the image that
`NewImage` made carries the label "maintainer=qa", and the final image that is
built carries only the driver label: the label it had is dropped, while its
build argument is kept. -/
theorem final_image_labels_replaced :
    (⟨.initImage, .NewImage "chrome" "/tmp/final"
        (demoChrome "" "106.0.5249.61").toRequirements
        (.ok ⟨"/tmp/final", ["HTTP_PROXY=proxy"], ["maintainer=qa"], false⟩)⟩ : Event)
        ∈ ((demoChrome "" "106.0.5249.61").run labelledWorld).1
    ∧ (⟨.buildImage, .Build ⟨"/tmp/final", ["HTTP_PROXY=proxy", "VERSION=106"],
        ["driver=chromedriver:106.0.5249.61"], false⟩ none⟩ : Event)
        ∈ ((demoChrome "" "106.0.5249.61").run labelledWorld).1
    ∧ "maintainer=qa" ∉ ["driver=chromedriver:106.0.5249.61"] := by
  decide

/-- C9 (amended): the final image that `Build` builds is the image `NewImage`
made from the caller-supplied requirements with two fields changed: its build
arguments are the ones it had followed by "VERSION=" and the tag version, and
its labels are replaced by the single label "driver=chromedriver:" followed by
the version of the successful driver download; its directory and file-server
flag are unchanged. -/
theorem Build_final_image (c : Chrome) (w : World) (img : Image) (err : Option String)
    (h : (⟨.buildImage, .Build img err⟩ : Event) ∈ (c.run w).1) :
    ∃ path p dir img0 ver dlpath,
      (⟨.browserSource, .Prepare (.ok (path, p))⟩ : Event) ∈ (c.run w).1
      ∧ (⟨.initImage, .NewImage "chrome" dir c.toRequirements (.ok img0)⟩ : Event)
          ∈ (c.run w).1
      ∧ downloadEvent ver img0.Dir (.ok dlpath) ∈ (c.run w).1
      ∧ img = { Dir := img0.Dir,
                BuildArgs := img0.BuildArgs ++ ["VERSION=" ++ w.extractVersion p],
                Labels := ["driver=chromedriver:" ++ ver],
                FileServer := img0.FileServer } :=
  (final_image_sat c w).holds img err h

/-- C9 witness: the final build of the run of `labelledWorld`. -/
theorem Build_final_image_witness :
    (⟨.buildImage, .Build ⟨"/tmp/final", ["HTTP_PROXY=proxy", "VERSION=106"],
        ["driver=chromedriver:106.0.5249.61"], false⟩ none⟩ : Event)
        ∈ ((demoChrome "" "106.0.5249.61").run labelledWorld).1
    ∧ ∃ path p dir img0 ver dlpath,
      (⟨.browserSource, .Prepare (.ok (path, p))⟩ : Event)
          ∈ ((demoChrome "" "106.0.5249.61").run labelledWorld).1
      ∧ (⟨.initImage, .NewImage "chrome" dir (demoChrome "" "106.0.5249.61").toRequirements
            (.ok img0)⟩ : Event) ∈ ((demoChrome "" "106.0.5249.61").run labelledWorld).1
      ∧ downloadEvent ver img0.Dir (.ok dlpath)
          ∈ ((demoChrome "" "106.0.5249.61").run labelledWorld).1
      ∧ (⟨"/tmp/final", ["HTTP_PROXY=proxy", "VERSION=106"],
          ["driver=chromedriver:106.0.5249.61"], false⟩ : Image)
        = { Dir := img0.Dir,
            BuildArgs := img0.BuildArgs ++ ["VERSION=" ++ labelledWorld.extractVersion p],
            Labels := ["driver=chromedriver:" ++ ver],
            FileServer := img0.FileServer } :=
  ⟨by decide, Build_final_image (demoChrome "" "106.0.5249.61") labelledWorld _ none
    (by decide)⟩

end SelenoidImages
